import Mathlib

/-!
Verification development for the hac-rs storage / archive library.

The Rust sources are shallowly embedded: byte buffers become lists of
naturals (each < 256 where it matters), storages are given by their byte
contents, pure functions become Lean functions, assert!/unwrap!/todo!
panics become an explicit RunResult.panicked outcome, and machine-integer
wraparound is written with explicit `% 2 ^ w`.
-/

namespace HacRs

/-- Error kinds of the storage layer, from StorageError in
crates/hac/src/storage/mod.rs; the inaccessible variant is the
Inaccessible error used by the NCZ body storage and the deny storage. -/
inductive StorageError where
  | io
  | readonly
  | fixedSize
  | outOfBounds
  | integrityCheckFailed
  | unalignedAccess
  | inaccessible (offset : Nat)
deriving DecidableEq, Repr

/-- Outcome of running Rust code that can fail with an error value or
panic (assert!, unwrap, todo!, unreachable!). -/
inductive RunResult (ε α : Type) where
  | ok (a : α)
  | err (e : ε)
  | panicked
deriving DecidableEq, Repr

/-- The byte range [off, off+len) of a list. -/
def sliceL (l : List Nat) (off len : Nat) : List Nat :=
  (l.drop off).take len

/-- Contract-abiding positional read on a storage given by its contents:
an in-bounds read succeeds and returns exactly the requested bytes, an
out-of-bounds read fails (spec section 4.1 storage contract, implemented
by the leaf storages such as SliceStorage and the file storages). -/
def readC (data : List Nat) (offset len : Nat) : Except StorageError (List Nat) :=
  if offset + len ≤ data.length then .ok (sliceL data offset len)
  else .error .outOfBounds

/-- Integer::div_ceil on naturals, as used by the block-storage helpers. -/
def divCeil (a b : Nat) : Nat := (a + b - 1) / b

/-- ReadableBlockStorageExt::block_count from crates/hac/src/storage/mod.rs. -/
def blockCount (size blockSize : Nat) : Nat := divCeil size blockSize

/-- ReadableBlockStorageExt::nth_block_size from crates/hac/src/storage/mod.rs:
asserts the block index is in range (panic otherwise); the last block may be
smaller than the block size. -/
def nthBlockSize (size blockSize i : Nat) : RunResult StorageError Nat :=
  if i < blockCount size blockSize then
    .ok (if i = blockCount size blockSize - 1 then (size - 1) % blockSize + 1
         else blockSize)
  else .panicked

/-- BlockAdapterStorage::read_block from
crates/hac/src/fs/storage/block_adapter_storage.rs: asserts
buf.len() == block_size ("Only full blocks can be read", panic otherwise),
then issues one underlying read at block_index * block_size. -/
def BlockAdapterStorage.readBlock (data : List Nat) (blockSize i bufLen : Nat) :
    RunResult StorageError (List Nat) :=
  if bufLen = blockSize then
    match readC data (i * blockSize) bufLen with
    | .ok c => .ok c
    | .error e => .err e
  else .panicked

/-- BlockAdapterStorage::read_block_bulk from
crates/hac/src/fs/storage/block_adapter_storage.rs: asserts
buf.len() % block_size == 0, then issues one underlying read. -/
def BlockAdapterStorage.readBlockBulk (data : List Nat) (blockSize i bufLen : Nat) :
    RunResult StorageError (List Nat) :=
  if bufLen % blockSize = 0 then
    match readC data (i * blockSize) bufLen with
    | .ok c => .ok c
    | .error e => .err e
  else .panicked

/-- LinearAdapterStorage::read from
crates/hac/src/storage/linear_adapter_storage.rs, composed over
BlockAdapterStorage(S, blockSize) where S is a contract-abiding storage with
contents data: an unaligned head is served from one full-block read, the
aligned middle from one bulk read, and an unaligned tail from one more
full-block read. -/
def LinearAdapterStorage.read (data : List Nat) (bs offset len : Nat) :
    RunResult StorageError (List Nat) :=
  let headOff := offset % bs
  let headStep : RunResult StorageError (List Nat × Nat × Nat) :=
    if headOff ≠ 0 then
      match BlockAdapterStorage.readBlock data bs (offset / bs) bs with
      | .ok blockBuffer =>
        let headLen := min (bs - headOff) len
        .ok (sliceL blockBuffer headOff headLen, offset + headLen, len - headLen)
      | .err e => .err e
      | .panicked => .panicked
    else .ok ([], offset, len)
  match headStep with
  | .err e => .err e
  | .panicked => .panicked
  | .ok (head, offset1, len1) =>
    let bodyCnt := len1 / bs
    match BlockAdapterStorage.readBlockBulk data bs (offset1 / bs) (bodyCnt * bs) with
    | .err e => .err e
    | .panicked => .panicked
    | .ok body =>
      let offset2 := offset1 + bodyCnt * bs
      let len2 := len1 - bodyCnt * bs
      if len2 ≠ 0 then
        match BlockAdapterStorage.readBlock data bs (offset2 / bs) bs with
        | .ok blockBuffer => .ok (head ++ body ++ blockBuffer.take len2)
        | .err e => .err e
        | .panicked => .panicked
      else .ok (head ++ body)

/-- ConcatStorageN::read from crates/hac/src/storage/concat_storage.rs.
parts are the contents of the contract-abiding part storages, buf is the
current contents of the caller's buffer (its unwritten tail is returned
unchanged, as the Rust buffer keeps its previous bytes). -/
def ConcatStorageN.read : List (List Nat) → Nat → List Nat → Except StorageError (List Nat)
  | [], _, buf => .ok buf
  | p :: rest, offset, buf =>
    if offset < p.length then
      let len := min (offset + buf.length) p.length - offset
      match readC p offset len with
      | .error e => .error e
      | .ok chunk =>
        let rem := buf.drop len
        if rem.isEmpty then .ok chunk
        else
          match ConcatStorageN.read rest (offset + len - p.length) rem with
          | .error e => .error e
          | .ok tl => .ok (chunk ++ tl)
    else
      if buf.isEmpty then .ok buf
      else ConcatStorageN.read rest (offset - p.length) buf

/-- ConcatStorage2::read from crates/hac/src/storage/concat_storage.rs. -/
def ConcatStorage2.read (left right : List Nat) (offset : Nat) (buf : List Nat) :
    Except StorageError (List Nat) :=
  if offset < left.length then
    let len := min (offset + buf.length) left.length - offset
    match readC left offset len with
    | .error e => .error e
    | .ok chunk =>
      let rem := buf.drop len
      if rem.isEmpty then .ok chunk
      else
        match readC right (offset + len - left.length) rem.length with
        | .error e => .error e
        | .ok tl => .ok (chunk ++ tl)
  else
    if buf.isEmpty then .ok buf
    else
      match readC right (offset - left.length) buf.length with
      | .error e => .error e
      | .ok tl => .ok tl

/-- A readable storage given by its observable behaviour: a positional
read function and a size (used where the Rust code is generic over
ReadableStorage). -/
structure RStorage where
  read : Nat → Nat → Except StorageError (List Nat)
  size : Nat

/-- NCA_HEADERS_SIZE from crates/hac/src/formats/nca/ncz/mod.rs. -/
def NCA_HEADERS_SIZE : Nat := 0x4000

/-- The two flavours of NczBodyStorage from
crates/hac/src/formats/nca/ncz/mod.rs; the inner storage stands for the
LinearAdapter(BlockCache(BlockAdapter(...))) stack over the decompressed
stream of that flavour. -/
inductive NczBodyStorage where
  | streaming (inner : RStorage)
  | block (inner : RStorage)

/-- The inner decompressed-stream storage of either flavour. -/
def NczBodyStorage.inner : NczBodyStorage → RStorage
  | .streaming s => s
  | .block s => s

/-- NczBodyStorage::read: a fake unreadable region [0, 0x4000) keeps the
original NCA header offsets valid; other reads are delegated shifted down
by 0x4000. -/
def NczBodyStorage.read (n : NczBodyStorage) (offset len : Nat) :
    Except StorageError (List Nat) :=
  if offset < NCA_HEADERS_SIZE then .error (.inaccessible offset)
  else
    match n with
    | .streaming s => s.read (offset - NCA_HEADERS_SIZE) len
    | .block s => s.read (offset - NCA_HEADERS_SIZE) len

/-- NczBodyStorage::get_size: the inner size plus the 0x4000 header region. -/
def NczBodyStorage.getSize (n : NczBodyStorage) : Nat :=
  (match n with
   | .streaming s => s.size
   | .block s => s.size) + NCA_HEADERS_SIZE

/-- Big-endian byte decoding (u64::from_be_bytes / u128::from_be_bytes). -/
def fromBeBytes (l : List Nat) : Nat := l.foldl (fun a b => a * 256 + b) 0

/-- Big-endian encoding of the low 64 bits (u64::to_be_bytes). -/
def toBeBytes8 (n : Nat) : List Nat :=
  [n / 2 ^ 56 % 256, n / 2 ^ 48 % 256, n / 2 ^ 40 % 256, n / 2 ^ 32 % 256,
   n / 2 ^ 24 % 256, n / 2 ^ 16 % 256, n / 2 ^ 8 % 256, n % 256]

/-- Big-endian encoding of the low 128 bits (u128::to_be_bytes). -/
def toBeBytes16 (n : Nat) : List Nat :=
  toBeBytes8 (n / 2 ^ 64) ++ toBeBytes8 n

/-- AesCtrBlockTransform::get_ctr from
crates/hac/src/fs/storage/block_transform_storage/block_transforms.rs:
u128::from_be_bytes(nonce) + block_index (128-bit wraparound), back to
big-endian bytes. -/
def AesCtrBlockTransform.getCtr (nonce : List Nat) (blockIndex : Nat) : List Nat :=
  toBeBytes16 ((fromBeBytes nonce + blockIndex) % 2 ^ 128)

/-- The base nonce built by NcaCryptStorage::new_ctr from
crates/hac/src/formats/nca/crypt_storage.rs: bytes 0..8 are the FS header's
upper counter big-endian, bytes 8..16 are start_offset / 16 big-endian. -/
def NcaCryptStorage.newCtrNonce (upperCounter startOffset : Nat) : List Nat :=
  toBeBytes8 upperCounter ++ toBeBytes8 (startOffset / 16)

/-! AES-128 (FIPS 197), modelling the external aes crate used by
crates/hac/src/crypto/mod.rs. The state is the flat 16-byte column-major
layout; the S-boxes are packed little-endian into one natural, byte i at
bits [8i, 8i+8). -/

/-- The AES forward S-box, packed. -/
def sboxPacked : Nat := 2869618975290639062594974519597816386035077209210385677284518162336985023502962151465775969507961862820568736543004676439868535775640188584098917533413284844376797297285941524888791401501466624530423689326528054213168201056672989590893583853414110162539122864583953358348775951166211353578440977400428507475679327181038682772945817200201960445064847785221508011893952350688324234443749897213621340677040612747745615276448919507935121141307752692835344166708617454322778699219895865633266409040561742768581056182730443599545881830075941537620590442514083341749674612746994879540562701631131184186066652929592955206755

/-- The AES inverse S-box, packed. -/
def invSboxPacked : Nat := 15785769749828884342349381641981096363179738000380205650940338083111619982568718420166261191398703005748170232611805704157196303061330872280026969925224128193193768962594508714770967646139604422718174787315048227180018877623049221087186576642191304514338137614235628241783007805847129270530950856841486400764657112140097236091222567730363620332611309375046737430203438830593833719428588466121688739068564421474273450162064709239629809347626728710072303178617319436726577534667237755444692000788692193415136619289353224918429728194544458916874716857284226411602766869706570927007876872095880586785662942963508062062930

/-- Look up byte i of a packed table. -/
def tableAt (packed i : Nat) : Nat := (packed >>> (8 * i)) % 256

/-- Forward S-box lookup. -/
def sboxAt (i : Nat) : Nat := tableAt sboxPacked i

/-- Inverse S-box lookup. -/
def invSboxAt (i : Nat) : Nat := tableAt invSboxPacked i

/-- Multiplication by x in GF(2^8) with the AES polynomial. -/
def aesXtime (b : Nat) : Nat := if b < 128 then 2 * b else (2 * b) ^^^ 0x11b

/-- GF(2^8) product, 8 shift-and-add rounds. -/
def gfMulAux : Nat → Nat → Nat → Nat → Nat
  | 0, _, _, acc => acc
  | fuel + 1, a, b, acc =>
    gfMulAux fuel (aesXtime a) (b / 2) (if b % 2 = 1 then acc ^^^ a else acc)

/-- GF(2^8) product. -/
def gfMul (a b : Nat) : Nat := gfMulAux 8 a b 0

/-- ShiftRows as an index permutation of the flat column-major state. -/
def shiftRowsPerm : List Nat := [0, 5, 10, 15, 4, 9, 14, 3, 8, 13, 2, 7, 12, 1, 6, 11]

/-- InvShiftRows as an index permutation. -/
def invShiftRowsPerm : List Nat := [0, 13, 10, 7, 4, 1, 14, 11, 8, 5, 2, 15, 12, 9, 6, 3]

/-- Apply an index permutation to a state. -/
def permute (p s : List Nat) : List Nat := p.map (fun i => s.getD i 0)

/-- The MixColumns matrix. -/
def mixMatrix : List (List Nat) := [[2, 3, 1, 1], [1, 2, 3, 1], [1, 1, 2, 3], [3, 1, 1, 2]]

/-- The InvMixColumns matrix. -/
def invMixMatrix : List (List Nat) :=
  [[14, 11, 13, 9], [9, 14, 11, 13], [13, 9, 14, 11], [11, 13, 9, 14]]

/-- GF(2^8) dot product of a matrix row with a column. -/
def dotGf (row col : List Nat) : Nat := (List.zipWith gfMul row col).foldl (· ^^^ ·) 0

/-- Column mixing of the flat state with a given matrix. -/
def mixColumnsWith (m : List (List Nat)) (s : List Nat) : List Nat :=
  (List.range 4).flatMap (fun c => m.map (fun row => dotGf row (sliceL s (4 * c) 4)))

/-- XOR of two byte strings. -/
def xorBytes (a b : List Nat) : List Nat := List.zipWith (· ^^^ ·) a b

/-- The AES-128 round constants. -/
def rconList : List Nat := [1, 2, 4, 8, 0x10, 0x20, 0x40, 0x80, 0x1b, 0x36]

/-- AES-128 key schedule: the 44 expanded 4-byte words. -/
def aesKeyWords (key : List Nat) : List (List Nat) :=
  let w0 := [sliceL key 0 4, sliceL key 4 4, sliceL key 8 4, sliceL key 12 4]
  (List.range 40).foldl (fun w i =>
    let i4 := i + 4
    let prev1 := w.getD (i4 - 1) []
    let prev4 := w.getD (i4 - 4) []
    let t :=
      if i4 % 4 = 0 then
        let rot := prev1.drop 1 ++ prev1.take 1
        let sub := rot.map sboxAt
        match sub with
        | b0 :: restb => (b0 ^^^ rconList.getD (i4 / 4 - 1) 0) :: restb
        | [] => []
      else prev1
    w ++ [xorBytes prev4 t]) w0

/-- AES-128 round keys: 11 keys of 16 bytes. -/
def aesRoundKeys (key : List Nat) : List (List Nat) :=
  (List.range 11).map (fun r => (((aesKeyWords key).drop (4 * r)).take 4).flatten)

/-- AES-128 single-block encryption (the aes crate's encrypt_block). -/
def aesEncryptBlock (key block : List Nat) : List Nat :=
  let rk := aesRoundKeys key
  let s0 := xorBytes block (rk.getD 0 [])
  let sMain := (List.range 9).foldl (fun s r =>
    let s := s.map sboxAt
    let s := permute shiftRowsPerm s
    let s := mixColumnsWith mixMatrix s
    xorBytes s (rk.getD (r + 1) [])) s0
  let s := sMain.map sboxAt
  let s := permute shiftRowsPerm s
  xorBytes s (rk.getD 10 [])

/-- AES-128 single-block decryption (the aes crate's decrypt_block). -/
def aesDecryptBlock (key block : List Nat) : List Nat :=
  let rk := aesRoundKeys key
  let s0 := xorBytes block (rk.getD 10 [])
  let sMain := (List.range 9).foldl (fun s i =>
    let r := 9 - i
    let s := permute invShiftRowsPerm s
    let s := s.map invSboxAt
    let s := xorBytes s (rk.getD r [])
    mixColumnsWith invMixMatrix s) s0
  let s := permute invShiftRowsPerm sMain
  let s := s.map invSboxAt
  xorBytes s (rk.getD 0 [])

/-- get_tweak from crates/hac/src/crypto/mod.rs: writes the sector number
from the last tweak byte backwards, producing its 16 big-endian bytes. -/
def getTweak (sector : Nat) : List Nat := toBeBytes16 sector

/-- Multiplication of the XTS tweak by x in GF(2^128) (little-endian byte
order with the x^128 + x^7 + x^2 + x + 1 polynomial), as in the xts-mode
crate. -/
def xtsMulX (t : List Nat) : List Nat :=
  let step := t.foldl (fun (acc : List Nat × Nat) b =>
    (acc.1 ++ [(2 * b + acc.2) % 256], b / 128)) ([], 0)
  match step.1 with
  | b0 :: rest => if step.2 = 1 then (b0 ^^^ 0x87) :: rest else b0 :: rest
  | [] => []

/-- decrypt_sector of the xts-mode crate for sector lengths that are a
multiple of 16 (the only lengths the NCA code uses): the tweak is the
sector tweak encrypted under key2; each 16-byte unit is xor-decrypt-xor
under key1 with the tweak multiplied by x between units. -/
def xtsDecryptSector (key1 key2 data tweakBytes : List Nat) : List Nat :=
  let t0 := aesEncryptBlock key2 tweakBytes
  ((List.range (data.length / 16)).foldl (fun (acc : List Nat × List Nat) i =>
    let c := sliceL data (16 * i) 16
    let p := xorBytes (aesDecryptBlock key1 (xorBytes c acc.2)) acc.2
    (acc.1 ++ p, xtsMulX acc.2)) ([], t0)).1

/-- AesXtsKey::decrypt from crates/hac/src/crypto/mod.rs: panics unless the
data length is a multiple of the sector size, then applies decrypt_sector
to every sector with consecutive sector tweaks. The 32-byte key is split
into key1 (bytes 0..16) and key2 (bytes 16..32). -/
def AesXtsKey.decrypt (key data : List Nat) (sector sectorSize : Nat) :
    RunResult Empty (List Nat) :=
  if data.length % sectorSize = 0 then
    .ok ((List.range (data.length / sectorSize)).foldl (fun acc i =>
      acc ++ xtsDecryptSector (key.take 16) (key.drop 16)
        (sliceL data (i * sectorSize) sectorSize) (getTweak (sector + i))) [])
  else .panicked

/-- AesXtsKey::encrypt from crates/hac/src/crypto/mod.rs. Its body is the
same as decrypt's: it too calls decrypt_sector on every sector. -/
def AesXtsKey.encrypt (key data : List Nat) (sector sectorSize : Nat) :
    RunResult Empty (List Nat) :=
  if data.length % sectorSize = 0 then
    .ok ((List.range (data.length / sectorSize)).foldl (fun acc i =>
      acc ++ xtsDecryptSector (key.take 16) (key.drop 16)
        (sliceL data (i * sectorSize) sectorSize) (getTweak (sector + i))) [])
  else .panicked

/-! SHA-256 (FIPS 180-4), modelling the external sha2 crate. -/

/-- The 64 SHA-256 round constants, packed little-endian as 32-bit words
(word i at bits [32i, 32i+32)). -/
def sha256KPacked : Nat := 25051139735836467913601071899189108501681633092613316132753366958947502841281110980347811086624969305314199562795868290539880502533646505489797110349007385020507326982043050618112420254613810441709594605123090411975756494285771699200369901479195251226368983824020564277645963860728452821576845901498668417244438721537663670541944820957180957595559282976806173113161068298822071065329290006052849814285001949914564097058408480133985233335799884203712730341384999677089997083749077591931498939520449886954646413138343858395935213418018409268340744776361518554939863400075967197509182087778881547827184266701615699472280

/-- Word i of the packed round-constant table. -/
def sha256KAt (i : Nat) : Nat := (sha256KPacked >>> (32 * i)) % 2 ^ 32

/-- The SHA-256 initial hash state, packed like the round constants. -/
def sha256HPacked : Nat := 41557658498906279274860226408925318911382702236748615442085426012007055353447

/-- The initial hash state as eight words. -/
def sha256InitH : List Nat :=
  (List.range 8).map (fun i => (sha256HPacked >>> (32 * i)) % 2 ^ 32)

/-- 32-bit right rotation. -/
def rotr32 (x n : Nat) : Nat := (x / 2 ^ n) ||| (x * 2 ^ (32 - n) % 2 ^ 32)

/-- SHA-256 message padding. -/
def sha256Pad (msg : List Nat) : List Nat :=
  let L := msg.length
  let padLen := (64 - (L + 9) % 64) % 64
  msg ++ [0x80] ++ List.replicate padLen 0 ++ toBeBytes8 (8 * L)

/-- Chunk a byte string into big-endian 32-bit words. -/
def toWordsBE (l : List Nat) : List Nat :=
  (List.range (l.length / 4)).map (fun i => fromBeBytes (sliceL l (4 * i) 4))

/-- Extend 16 schedule words to 64. -/
def sha256Sched (ws : List Nat) : List Nat :=
  (List.range 48).foldl (fun w _ =>
    let n := w.length
    let w15 := w.getD (n - 15) 0
    let w2 := w.getD (n - 2) 0
    let s0 := rotr32 w15 7 ^^^ rotr32 w15 18 ^^^ (w15 / 2 ^ 3)
    let s1 := rotr32 w2 17 ^^^ rotr32 w2 19 ^^^ (w2 / 2 ^ 10)
    w ++ [(w.getD (n - 16) 0 + s0 + w.getD (n - 7) 0 + s1) % 2 ^ 32]) ws

/-- The SHA-256 compression function on one 16-word block. -/
def sha256Compress (h block : List Nat) : List Nat :=
  let w := sha256Sched block
  let final := (List.range 64).foldl (fun (st : List Nat) i =>
    match st with
    | [a, b, c, d, e, f, g, hh] =>
      let S1 := rotr32 e 6 ^^^ rotr32 e 11 ^^^ rotr32 e 25
      let ch := (e &&& f) ^^^ ((e ^^^ 0xffffffff) &&& g)
      let t1 := (hh + S1 + ch + sha256KAt i + w.getD i 0) % 2 ^ 32
      let S0 := rotr32 a 2 ^^^ rotr32 a 13 ^^^ rotr32 a 22
      let mj := (a &&& b) ^^^ (a &&& c) ^^^ (b &&& c)
      let t2 := (S0 + mj) % 2 ^ 32
      [(t1 + t2) % 2 ^ 32, a, b, c, (d + t1) % 2 ^ 32, e, f, g]
    | _ => st) h
  List.zipWith (fun x y => (x + y) % 2 ^ 32) h final

/-- SHA-256 of a byte string, as a 32-byte digest. -/
def sha256 (msg : List Nat) : List Nat :=
  let words := toWordsBE (sha256Pad msg)
  let blocks := (List.range (words.length / 16)).map (fun i => sliceL words (16 * i) 16)
  let hFinal := blocks.foldl sha256Compress sha256InitH
  hFinal.flatMap (fun wrd => [wrd / 2 ^ 24 % 256, wrd / 2 ^ 16 % 256, wrd / 2 ^ 8 % 256, wrd % 256])

/-! The integrity-verification level storage (claim C3). -/

/-- Per-block verification verdict, from BlockStatus in
crates/hac/src/fs/nca/verification_storage/integrity_verification_level_storage.rs. -/
inductive BlockStatus where
  | unchecked
  | invalid
  | valid
deriving DecidableEq, Repr

/-- IntegrityStorageType: PartitionFs is the HierarchicalSha256 (PFS)
flavour, RomFs the IVFC flavour. -/
inductive IntegrityStorageType where
  | partitionFs
  | romFs
deriving DecidableEq, Repr

/-- IntegrityCheckLevel from crates/hac/src/fs/nca/verification_storage/mod.rs. -/
inductive IntegrityCheckLevel where
  | none
  | ignoreOnInvalid
  | full
deriving DecidableEq, Repr

/-- IntegrityVerificationLevelStorage::read_block from
crates/hac/src/fs/nca/verification_storage/integrity_verification_level_storage.rs.
The data block storage is contract-abiding with contents data and the given
block size; the hash storage has contents hashData; statuses is the
block_statuses vector; buf holds the caller's buffer contents (so its length
is the requested read size, and a borrowed full-size buffer keeps its stale
tail bytes exactly as in the Rust code). Returns the read outcome together
with the updated statuses. -/
def IntegrityVerificationLevelStorage.readBlock
    (blockSize : Nat) (data hashData : List Nat)
    (level : IntegrityCheckLevel) (ty : IntegrityStorageType)
    (statuses : List BlockStatus) (blockIndex : Nat) (buf : List Nat) :
    RunResult StorageError (List Nat) × List BlockStatus :=
  match nthBlockSize data.length blockSize blockIndex with
  | .panicked => (.panicked, statuses)
  | .err e => (.err e, statuses)
  | .ok currentBlockSize =>
    let blockBuf0 := if buf.length = blockSize then buf else List.replicate blockSize 0
    match readC data (blockIndex * blockSize) currentBlockSize with
    | .error e => (.err e, statuses)
    | .ok chunk =>
      let blockBuf := chunk ++ blockBuf0.drop currentBlockSize
      if level = IntegrityCheckLevel.none then
        (.ok (blockBuf.take buf.length), statuses)
      else
        match statuses.get? blockIndex with
        | Option.none => (.panicked, statuses)
        | Option.some st =>
          let checked : RunResult StorageError (List Nat × List BlockStatus) :=
            if st = BlockStatus.unchecked then
              let blockBufH :=
                match ty with
                | .partitionFs => blockBuf
                | .romFs =>
                  blockBuf.take currentBlockSize ++
                    List.replicate (blockSize - currentBlockSize) 0
              let hashInput :=
                match ty with
                | .partitionFs => blockBufH.take currentBlockSize
                | .romFs => blockBufH.take blockSize
              match readC hashData (blockIndex * 32) 32 with
              | .error e => .err e
              | .ok expected =>
                let newStatus :=
                  if sha256 hashInput = expected then BlockStatus.valid
                  else BlockStatus.invalid
                .ok (blockBufH, statuses.set blockIndex newStatus)
            else .ok (blockBuf, statuses)
          match checked with
          | .err e => (.err e, statuses)
          | .panicked => (.panicked, statuses)
          | .ok (bufH, statuses1) =>
            let st1 := statuses1.getD blockIndex BlockStatus.unchecked
            if st1 = BlockStatus.invalid ∧ level = IntegrityCheckLevel.full then
              (.err .integrityCheckFailed, statuses1)
            else (.ok (bufH.take buf.length), statuses1)

/-- The bytes that read_block hashes for a given flavour: the bare payload
of the block for the PFS flavour, the payload zero-padded to the full block
size for the RomFS/IVFC flavour. -/
def c3HashInput (ty : IntegrityStorageType) (data : List Nat)
    (bs blockIndex current : Nat) : List Nat :=
  match ty with
  | .partitionFs => sliceL data (blockIndex * bs) current
  | .romFs => sliceL data (blockIndex * bs) current ++ List.replicate (bs - current) 0

/-! The NCA header pipeline (claim C5). -/

/-- NcaError from crates/hac/src/formats/nca/mod.rs. -/
inductive NcaError where
  | storage (e : StorageError)
  | missingKey
  | missingTitleKey
  | ncaHeaderParsing
  | fsHeaderParsing (index : Nat)
  | fsHeaderHashMismatch (index : Nat)
  | storageSizeMismatch (expected actual : Nat)
deriving DecidableEq, Repr

/-- Sha256Hash::verify from crates/hac/src/formats/nca/structs.rs: Ok iff
the SHA-256 of the data equals the stored 32-byte digest. -/
def Sha256Hash.verify (hash data : List Nat) : Except Unit Unit :=
  if sha256 data = hash then .ok () else .error ()

/-- One iteration of the FS-header loop of Nca::parse_headers
(crates/hac/src/formats/nca/mod.rs): a disabled section is neither verified
nor parsed; an enabled one is verified against its 32-byte hash from the
NCA header and then parsed. fsParser stands for the binrw-derived
NcaFsHeader::read (external generated parser), with the parsed header left
abstract as a natural. -/
def fsHeaderStep (fsParser : List Nat → Option Nat)
    (enabled : Nat → Bool) (hashes sectors : Nat → List Nat) (index : Nat) :
    Except NcaError (Option Nat) :=
  if enabled index then
    match Sha256Hash.verify (hashes index) (sectors index) with
    | .error _ => .error (.fsHeaderHashMismatch index)
    | .ok _ =>
      match fsParser (sectors index) with
      | Option.some h => .ok (Option.some h)
      | Option.none => .error (.fsHeaderParsing index)
  else .ok Option.none

/-- The FS-header verification loop of Nca::parse_headers: the four
0x200-byte (already decrypted) FS-header sectors are processed in index
order. enabled is the is_enabled flag of the section table, hashes the
fs_header_hashes array, sectors the four decrypted FS-header sectors. -/
def parseFsHeaders (fsParser : List Nat → Option Nat)
    (enabled : Nat → Bool) (hashes sectors : Nat → List Nat) :
    Except NcaError (List (Option Nat)) := do
  let h0 ← fsHeaderStep fsParser enabled hashes sectors 0
  let h1 ← fsHeaderStep fsParser enabled hashes sectors 1
  let h2 ← fsHeaderStep fsParser enabled hashes sectors 2
  let h3 ← fsHeaderStep fsParser enabled hashes sectors 3
  pure [h0, h1, h2, h3]

/-- Nca::new after the NCA header itself has been obtained (parsed, after
XTS decryption if it was encrypted): the FS-header verification loop runs
first, then the declared NCA size is checked against the storage size, then
the content keys are derived (a keyset interaction abstracted as a given
outcome), and finally the enabled-section count is asserted. -/
def ncaNew (fsParser : List Nat → Option Nat)
    (enabled : Nat → Bool) (hashes sectors : Nat → List Nat)
    (ncaSize storageSize : Nat) (keysOutcome : Except NcaError Unit)
    (expectedSectionCount : Nat) : RunResult NcaError (List (Option Nat)) :=
  match parseFsHeaders fsParser enabled hashes sectors with
  | .error e => .err e
  | .ok fsHeaders =>
    if ncaSize ≠ storageSize then .err (.storageSizeMismatch ncaSize storageSize)
    else
      match keysOutcome with
      | .error e => .err e
      | .ok _ =>
        if (fsHeaders.filterMap id).length = expectedSectionCount then .ok fsHeaders
        else .panicked

/-! Tickets and the keyset title-key map (claim C7). -/

/-- TitleKeyType from crates/hac/src/formats/ticket.rs. -/
inductive TitleKeyType where
  | common
  | personalized
deriving DecidableEq, Repr

/-- The fields of Ticket (crates/hac/src/formats/ticket.rs) that the
title-key path uses: the 0x100-byte title-key block, the key type and the
16-byte rights id. -/
structure Ticket where
  titleKeyBlock : List Nat
  titleKeyType : TitleKeyType
  rightsId : List Nat
deriving DecidableEq, Repr

/-- Ticket::title_key: a Common ticket's key is the raw first 16 bytes of
the title-key block; Personalized is todo! (panic). The keyset parameter of
the source is unused there as well. -/
def Ticket.titleKey (t : Ticket) : RunResult Empty (List Nat) :=
  match t.titleKeyType with
  | .common => .ok (t.titleKeyBlock.take 0x10)
  | .personalized => .panicked

/-- Assoc-map insert with HashMap::insert semantics (replace an existing
key, else append). -/
def insertAssoc (m : List (List Nat × List Nat)) (k v : List Nat) :
    List (List Nat × List Nat) :=
  match m with
  | [] => [(k, v)]
  | (k0, v0) :: rest =>
    if k0 = k then (k, v) :: rest else (k0, v0) :: insertAssoc rest k v

/-- Assoc-map lookup. -/
def lookupAssoc (m : List (List Nat × List Nat)) (k : List Nat) : Option (List Nat) :=
  match m with
  | [] => Option.none
  | (k0, v0) :: rest => if k0 = k then Option.some v0 else lookupAssoc rest k

/-- The rights-id → title-key map of KeySet (crates/hac/src/crypto/keyset.rs);
the other key material does not participate in claim C7. -/
structure KeySet where
  titleKeys : List (List Nat × List Nat)
deriving DecidableEq, Repr

/-- KeySet::import_ticket from crates/hac/src/crypto/keyset.rs: registers
the ticket's raw title key under the ticket's rights id. -/
def KeySet.importTicket (ks : KeySet) (t : Ticket) : RunResult Empty KeySet :=
  match t.titleKey with
  | .ok k => .ok ⟨insertAssoc ks.titleKeys t.rightsId k⟩
  | .err e => .err e
  | .panicked => .panicked

/-- KeySet::title_key: the map lookup (the source wraps a miss into
MissingTitleKeyError). -/
def KeySet.titleKey (ks : KeySet) (rightsId : List Nat) : Option (List Nat) :=
  lookupAssoc ks.titleKeys rightsId

/-- TitleKey::decrypt from crates/hac/src/crypto/mod.rs: derive_key, i.e.
one AES-128 block decryption of the title-key bytes under the title kek. -/
def TitleKey.decrypt (titleKeyBytes titleKek : List Nat) : List Nat :=
  aesDecryptBlock titleKek titleKeyBytes

/-- Single-block AES-128-ECB decryption: the aes128_ecb_decrypt of spec
section 8, scenario 4. -/
def aes128EcbDecrypt (key block : List Nat) : List Nat := aesDecryptBlock key block

/-! The content aggregator (claim C1). -/

/-- ContentMetaType from crates/hac/src/formats/cnmt/mod.rs. -/
inductive ContentMetaType where
  | systemProgram
  | systemData
  | systemUpdate
  | bootImagePackage
  | bootImagePackageSafe
  | application
  | patch
  | addOnContent
  | delta
  | dataPatch
deriving DecidableEq, Repr

/-- NcmContentType from crates/hac/src/formats/cnmt/mod.rs. -/
inductive NcmContentType where
  | meta
  | program
  | data
  | control
  | htmlDocument
  | legalInformation
  | deltaFragment
deriving DecidableEq, Repr

/-- NcaContentType from crates/hac/src/formats/nca/structs.rs. -/
inductive NcaContentType where
  | program
  | meta
  | control
  | manual
  | data
  | publicData
deriving DecidableEq, Repr

/-- ExtendedMetaHeader from crates/hac/src/formats/cnmt/mod.rs, ids and
versions as plain naturals. -/
inductive ExtendedMetaHeader where
  | systemUpdate (extendedDataSize : Nat)
  | application (patchId requiredSystemVersion requiredApplicationVersion : Nat)
  | patch (applicationId requiredSystemVersion extendedDataSize : Nat)
  | addOnContent (applicationId requiredApplicationVersion contentAccessibilities dataPatchId : Nat)
  | delta (applicationId extendedDataSize : Nat)
  | none
deriving DecidableEq, Repr

/-- The fields of ContentInfo (crates/hac/src/formats/cnmt/mod.rs) the
aggregator uses; the content id is opaque. -/
structure CnmtContentInfo where
  id : Nat
  ty : NcmContentType
  idOffset : Nat
deriving DecidableEq, Repr

/-- PackagedContentInfo from crates/hac/src/formats/cnmt/mod.rs. -/
structure PackagedContentInfo where
  hash : List Nat
  contentInfo : CnmtContentInfo
deriving DecidableEq, Repr

/-- The fields of PackagedContentMeta (crates/hac/src/formats/cnmt/mod.rs)
the aggregator uses. -/
structure PackagedContentMeta where
  id : Nat
  version : Nat
  ty : ContentMetaType
  contentInstallType : Nat
  extendedHeader : ExtendedMetaHeader
  contentInfo : List PackagedContentInfo
deriving DecidableEq, Repr

/-- ContentMetaKey from crates/hac/src/formats/cnmt/mod.rs. -/
structure ContentMetaKey where
  id : Nat
  version : Nat
  ty : ContentMetaType
  installTy : Nat
deriving DecidableEq, Repr

/-- PackagedContentMeta::content_meta_key. -/
def PackagedContentMeta.contentMetaKey (m : PackagedContentMeta) : ContentMetaKey :=
  ⟨m.id, m.version, m.ty, m.contentInstallType⟩

/-- ControlParseError from crates/hac/src/switch_fs/content_set/mod.rs. -/
inductive ControlParseError where
  | noDataSection
  | noControlNacp
  | controlNacpOpen
  | controlNacpRead
  | controlNacpParse
deriving DecidableEq, Repr

/-- ProgramParseError from crates/hac/src/switch_fs/content_set/program.rs. -/
inductive ProgramParseError where
  | missingProgramContent
  | missingControlContent
  | controlParse (controlContentId : Nat) (source : ControlParseError)
deriving DecidableEq, Repr

/-- ProgramsParseError from crates/hac/src/switch_fs/content_set/program.rs. -/
structure ProgramsParseError where
  program : Nat
  source : ProgramParseError
deriving DecidableEq, Repr

/-- ContentParseError from crates/hac/src/switch_fs/content_set/mod.rs. -/
inductive ContentParseError where
  | metaNoDataSection
  | metaMultipleCnmt
  | metaNoCnmt
  | metaCnmtOpen
  | metaCnmtRead
  | metaCnmtParse
  | metaUnsupportedType (ty : ContentMetaType)
  | programsParse (source : ProgramsParseError)
  | missingNca (ncaId : Nat)
  | missingMainNca
  | missingControlNca
  | missingLegalInformationNca
  | missingDataNca
  | controlParse (controlNcaId : Nat) (source : ControlParseError)
deriving DecidableEq, Repr

/-- ContentSetParseError from crates/hac/src/switch_fs/content_set/mod.rs. -/
structure ContentSetParseError where
  metaNcaId : Nat
  source : ContentParseError
deriving DecidableEq, Repr

/-- The observable behaviour of one parsed Nca as the content aggregator
uses it: its content type, the outcome of locating/reading/parsing the
CNMT of its data section (lines 188-210 of content_set/mod.rs, which go
through the filesystem collaborators), and the outcome of reading its
control.nacp (read_control of program.rs; the parsed NACP is abstract). -/
structure NcaModel where
  contentType : NcaContentType
  cnmt : Except ContentParseError PackagedContentMeta
  control : Except ControlParseError Nat

/-- BTreeMap::get on the NCA set (ContentId → Nca). -/
def ncaSetGet (ncas : List (Nat × NcaModel)) (id : Nat) : Option NcaModel :=
  match ncas with
  | [] => Option.none
  | (k, v) :: rest => if k = id then Option.some v else ncaSetGet rest id

/-- Modelled from the spec: ProgramId::new is referenced by
content_set/program.rs but its definition is not under src (the snapshot's
ids.rs lacks it); spec sections 3 and 4.7 define
ProgramId = (meta.id AND NOT 0xff) OR id_offset. -/
def ProgramId.new (idBase idOffset : Nat) : Nat :=
  (idBase &&& 0xffffffffffffff00) ||| idOffset

/-- ProgramInfoBuilder from crates/hac/src/switch_fs/content_set/program.rs. -/
structure ProgramInfoBuilder where
  id : Nat
  baseProgramId : Option Nat
  programContent : Option Nat
  controlContent : Option Nat
  htmlDocumentContent : Option Nat
deriving DecidableEq, Repr

/-- ProgramInfoBuilder::new. -/
def ProgramInfoBuilder.new (id : Nat) (basePid : Option Nat) : ProgramInfoBuilder :=
  ⟨id, basePid, Option.none, Option.none, Option.none⟩

/-- The content-type match of parse_programs: Program/Control/HtmlDocument
populate the builder, other types are ignored. -/
def builderApply (b : ProgramInfoBuilder) (ty : NcmContentType) (contentId : Nat) :
    ProgramInfoBuilder :=
  match ty with
  | .program => { b with programContent := Option.some contentId }
  | .control => { b with controlContent := Option.some contentId }
  | .htmlDocument => { b with htmlDocumentContent := Option.some contentId }
  | _ => b

/-- BTreeMap entry(program_id).or_insert_with(new) followed by the
content-type match, on a sorted assoc list keyed by program id. -/
def buildersUpsert (bs : List (Nat × ProgramInfoBuilder)) (pid : Nat)
    (basePid : Option Nat) (ty : NcmContentType) (contentId : Nat) :
    List (Nat × ProgramInfoBuilder) :=
  match bs with
  | [] => [(pid, builderApply (ProgramInfoBuilder.new pid basePid) ty contentId)]
  | (k, b) :: rest =>
    if pid = k then (k, builderApply b ty contentId) :: rest
    else if pid < k then
      (pid, builderApply (ProgramInfoBuilder.new pid basePid) ty contentId) :: (k, b) :: rest
    else (k, b) :: buildersUpsert rest pid basePid ty contentId

/-- ProgramInfo from crates/hac/src/switch_fs/content_set/mod.rs (the
parsed NACP abstract). -/
structure ProgramInfo where
  id : Nat
  baseProgramId : Option Nat
  programContentId : Nat
  controlContentId : Nat
  htmlDocumentContentId : Option Nat
  control : Nat
deriving DecidableEq, Repr

/-- ProgramInfoBuilder::build: requires program and control contents, then
unwraps the control NCA from the set (panic when absent, as in the source)
and reads its control NACP. -/
def ProgramInfoBuilder.build (ncas : List (Nat × NcaModel)) (b : ProgramInfoBuilder) :
    RunResult ProgramParseError ProgramInfo :=
  match b.programContent with
  | Option.none => .err .missingProgramContent
  | Option.some programContentId =>
    match b.controlContent with
    | Option.none => .err .missingControlContent
    | Option.some controlContentId =>
      match ncaSetGet ncas controlContentId with
      | Option.none => .panicked
      | Option.some controlNca =>
        match controlNca.control with
        | .error e => .err (.controlParse controlContentId e)
        | .ok nacp =>
          .ok ⟨b.id, b.baseProgramId, programContentId, controlContentId,
               b.htmlDocumentContent, nacp⟩

/-- parse_programs from crates/hac/src/switch_fs/content_set/program.rs:
group content entries by program id, then build every program in key
order, stopping at the first error. -/
def parsePrograms (meta : PackagedContentMeta) (ncas : List (Nat × NcaModel)) :
    RunResult ProgramsParseError (List ProgramInfo) :=
  let idBase := meta.id
  let baseIdBase :=
    match meta.extendedHeader with
    | .patch applicationId _ _ => Option.some applicationId
    | _ => Option.none
  let builders := meta.contentInfo.foldl (fun bs pci =>
    let c := pci.contentInfo
    let pid := ProgramId.new idBase c.idOffset
    let basePid := baseIdBase.map (fun b => ProgramId.new b c.idOffset)
    buildersUpsert bs pid basePid c.ty c.id) []
  builders.foldl (fun acc (kv : Nat × ProgramInfoBuilder) =>
    match acc with
    | .ok l =>
      match ProgramInfoBuilder.build ncas kv.2 with
      | .ok p => .ok (l ++ [p])
      | .err e => .err ⟨kv.1, e⟩
      | .panicked => .panicked
    | other => other) (.ok [])

/-- ContentInfoCommon from crates/hac/src/switch_fs/content_set/mod.rs. -/
structure ContentInfoCommon where
  metadata : PackagedContentMeta
  contents : List Nat
  metaContentId : Nat
deriving DecidableEq, Repr

/-- ApplicationInfo from crates/hac/src/switch_fs/content_set/mod.rs. -/
structure ApplicationInfo where
  id : Nat
  patchId : Nat
  legalInformationContent : Nat
  programs : List ProgramInfo
  common : ContentInfoCommon
deriving DecidableEq, Repr

/-- PatchInfo from crates/hac/src/switch_fs/content_set/mod.rs. -/
structure PatchInfo where
  id : Nat
  applicationId : Nat
  legalInformationContent : Nat
  programs : List ProgramInfo
  common : ContentInfoCommon
deriving DecidableEq, Repr

/-- DataInfo from crates/hac/src/switch_fs/content_set/mod.rs. -/
structure DataInfo where
  id : Nat
  applicationId : Nat
  dataPatchId : Nat
  dataContent : Nat
  common : ContentInfoCommon
deriving DecidableEq, Repr

/-- DataPatchInfo from crates/hac/src/switch_fs/content_set/mod.rs. -/
structure DataPatchInfo where
  id : Nat
  common : ContentInfoCommon
deriving DecidableEq, Repr

/-- AnyContentInfo from crates/hac/src/switch_fs/content_set/mod.rs. -/
inductive AnyContentInfo where
  | application (info : ApplicationInfo)
  | patch (info : PatchInfo)
  | data (info : DataInfo)
  | dataPatch (info : DataPatchInfo)
deriving DecidableEq, Repr

/-- AnyContentInfo::content_meta_key via common_info. -/
def AnyContentInfo.contentMetaKey : AnyContentInfo → ContentMetaKey
  | .application i => i.common.metadata.contentMetaKey
  | .patch i => i.common.metadata.contentMetaKey
  | .data i => i.common.metadata.contentMetaKey
  | .dataPatch i => i.common.metadata.contentMetaKey

/-- find_content_of_type from crates/hac/src/switch_fs/content_set/mod.rs. -/
def findContentOfType (meta : PackagedContentMeta) (ty : NcmContentType) : Option Nat :=
  (meta.contentInfo.find? (fun ci => ci.contentInfo.ty = ty)).map
    (fun ci => ci.contentInfo.id)

/-- The referenced-NCA lookup loop of parse_content: each id is looked up
in the NCA set, the first missing one aborts with MissingNca. -/
def lookupContents (ncas : List (Nat × NcaModel)) :
    List Nat → Except ContentParseError (List Nat)
  | [] => .ok []
  | id :: rest =>
    match ncaSetGet ncas id with
    | Option.none => .error (.missingNca id)
    | Option.some _ =>
      match lookupContents ncas rest with
      | .error e => .error e
      | .ok l => .ok (id :: l)

/-- parse_content from crates/hac/src/switch_fs/content_set/mod.rs: get the
CNMT of the meta NCA, collect and look up the referenced content ids
(DeltaFragment entries excluded), then dispatch on the meta type. The
system/boot-image/delta types return MetaUnsupportedType; DataPatch is
todo! (panic); a mismatched extended header is unreachable! (panic). -/
def parseContent (metaContentId : Nat) (metaNca : NcaModel)
    (ncas : List (Nat × NcaModel)) : RunResult ContentParseError AnyContentInfo :=
  match metaNca.cnmt with
  | .error e => .err e
  | .ok meta =>
    let ncaIds := (meta.contentInfo.filter
      (fun ci => ci.contentInfo.ty ≠ NcmContentType.deltaFragment)).map
      (fun ci => ci.contentInfo.id)
    match lookupContents ncas ncaIds with
    | .error e => .err e
    | .ok contents =>
      let common : ContentInfoCommon := ⟨meta, contents, metaContentId⟩
      match meta.ty with
      | .systemProgram | .systemData | .systemUpdate
      | .bootImagePackage | .bootImagePackageSafe | .delta =>
        .err (.metaUnsupportedType meta.ty)
      | .application =>
        match meta.extendedHeader with
        | .application patchId _ _ =>
          match parsePrograms meta ncas with
          | .err e => .err (.programsParse e)
          | .panicked => .panicked
          | .ok programs =>
            match findContentOfType meta NcmContentType.legalInformation with
            | Option.none => .err .missingLegalInformationNca
            | Option.some legal =>
              .ok (.application ⟨meta.id, patchId, legal, programs, common⟩)
        | _ => .panicked
      | .patch =>
        match meta.extendedHeader with
        | .patch applicationId _ _ =>
          match parsePrograms meta ncas with
          | .err e => .err (.programsParse e)
          | .panicked => .panicked
          | .ok programs =>
            match findContentOfType meta NcmContentType.legalInformation with
            | Option.none => .err .missingLegalInformationNca
            | Option.some legal =>
              .ok (.patch ⟨meta.id, applicationId, legal, programs, common⟩)
        | _ => .panicked
      | .addOnContent =>
        match meta.extendedHeader with
        | .addOnContent applicationId _ _ dataPatchId =>
          match findContentOfType meta NcmContentType.data with
          | Option.none => .err .missingDataNca
          | Option.some dataContent =>
            .ok (.data ⟨meta.id, applicationId, dataPatchId, dataContent, common⟩)
        | _ => .panicked
      | .dataPatch => .panicked

/-- The six meta types of the MetaUnsupportedType branch of parse_content
(lines 256-264 of crates/hac/src/switch_fs/content_set/mod.rs). -/
def ContentMetaType.isUnsupported : ContentMetaType → Bool
  | .systemProgram | .systemData | .systemUpdate
  | .bootImagePackage | .bootImagePackageSafe | .delta => true
  | .application | .patch | .addOnContent | .dataPatch => false

/-- BTreeMap::insert on the content set (replace an existing key, else
append; the claims do not depend on the map's internal order). -/
def contentSetInsert (m : List (ContentMetaKey × AnyContentInfo))
    (k : ContentMetaKey) (v : AnyContentInfo) :
    List (ContentMetaKey × AnyContentInfo) :=
  match m with
  | [] => [(k, v)]
  | (k0, v0) :: rest =>
    if k0 = k then (k, v) :: rest else (k0, v0) :: contentSetInsert rest k v

/-- The iteration of content_set_from_nca_set over the NCA set entries:
each Meta NCA is parsed with parse_content and any error is wrapped with
the meta NCA id and propagated with the ? operator, aborting the whole
fold. -/
def contentSetGo (ncas : List (Nat × NcaModel)) :
    List (Nat × NcaModel) → List (ContentMetaKey × AnyContentInfo) →
    RunResult ContentSetParseError (List (ContentMetaKey × AnyContentInfo))
  | [], acc => .ok acc
  | (id, nca) :: rest, acc =>
    if nca.contentType = NcaContentType.meta then
      match parseContent id nca ncas with
      | .err e => .err ⟨id, e⟩
      | .panicked => .panicked
      | .ok content => contentSetGo ncas rest (contentSetInsert acc content.contentMetaKey content)
    else contentSetGo ncas rest acc

/-- content_set_from_nca_set from crates/hac/src/switch_fs/content_set/mod.rs. -/
def contentSetFromNcaSet (ncas : List (Nat × NcaModel)) :
    RunResult ContentSetParseError (List (ContentMetaKey × AnyContentInfo)) :=
  contentSetGo ncas ncas []

/-! Helper lemmas about byte slices and contract reads. -/

theorem sliceL_length (l : List Nat) (o n : Nat) (h : o + n ≤ l.length) :
    (sliceL l o n).length = n := by
  simp [sliceL]
  omega

theorem sliceL_append_adjacent (l : List Nat) (o a b : Nat) :
    sliceL l o a ++ sliceL l (o + a) b = sliceL l o (a + b) := by
  unfold sliceL
  rw [List.take_add, List.drop_drop]

theorem readC_ok (data : List Nat) (o n : Nat) (h : o + n ≤ data.length) :
    readC data o n = .ok (sliceL data o n) := by
  simp [readC, h]

theorem blockAdapter_readBlock_ok (data : List Nat) (bs i : Nat)
    (h : i * bs + bs ≤ data.length) :
    BlockAdapterStorage.readBlock data bs i bs = .ok (sliceL data (i * bs) bs) := by
  unfold BlockAdapterStorage.readBlock
  rw [if_pos rfl, readC_ok _ _ _ h]

theorem blockAdapter_readBlockBulk_ok (data : List Nat) (bs i n : Nat)
    (hm : n % bs = 0) (h : i * bs + n ≤ data.length) :
    BlockAdapterStorage.readBlockBulk data bs i n = .ok (sliceL data (i * bs) n) := by
  unfold BlockAdapterStorage.readBlockBulk
  rw [if_pos hm, readC_ok _ _ _ h]

/-! Claim C9. -/

/-- Claim C9 (code-bug evidence): for the 5-byte storage [1,2,3,4,5] under
a BlockAdapterStorage with block size 4, the trailing block 1 has
nth_block_size 1, yet read_block with a buffer of that length hits the
assert_eq!(buf.len(), block_size, "Only full blocks can be read") and
panics, although the ReadableBlockStorage trait documents read_block with
"Note: this allows reading partial blocks at the end of the storage" and
the default read_block_bulk and the integrity storage pass such partial
trailing buffers. -/
theorem c9_read_block_partial_trailing_panics :
    nthBlockSize 5 4 1 = .ok 1 ∧
    BlockAdapterStorage.readBlock [1, 2, 3, 4, 5] 4 1 1 = .panicked := by
  exact ⟨by decide, by decide⟩

/-! Claim C6. -/

/-- Claim C6: for every constructed NczBodyStorage (streaming or block
flavour), a read at an offset below 0x4000 fails with Inaccessible
carrying that offset, a read at offset at least 0x4000 is served from the
decompressed stream at offset - 0x4000, and get_size equals the
decompressed body size plus 0x4000, so the absolute section offsets of the
original NCA header remain valid. -/
theorem c6_ncz_body_virtual_header (n : NczBodyStorage) (offset len : Nat) :
    (offset < 0x4000 → n.read offset len = .error (.inaccessible offset)) ∧
    (0x4000 ≤ offset → n.read offset len = n.inner.read (offset - 0x4000) len) ∧
    n.getSize = n.inner.size + 0x4000 := by
  refine ⟨fun h => ?_, fun h => ?_, ?_⟩
  · unfold NczBodyStorage.read
    rw [if_pos (show offset < NCA_HEADERS_SIZE from h)]
  · unfold NczBodyStorage.read NczBodyStorage.inner
    rw [if_neg (show ¬offset < NCA_HEADERS_SIZE by exact Nat.not_lt.mpr h)]
    cases n <;> rfl
  · cases n <;> rfl

/-- Witness for C6 at a concrete 3-byte decompressed stream. -/
theorem c6_witness :
    (NczBodyStorage.block ⟨fun o l => readC [7, 8, 9] o l, 3⟩).read 10 4 =
      .error (.inaccessible 10) ∧
    (NczBodyStorage.block ⟨fun o l => readC [7, 8, 9] o l, 3⟩).read 0x4001 2 =
      readC [7, 8, 9] 1 2 ∧
    (NczBodyStorage.block ⟨fun o l => readC [7, 8, 9] o l, 3⟩).getSize = 3 + 0x4000 := by
  refine ⟨(c6_ncz_body_virtual_header _ 10 4).1 (by norm_num), ?_, ?_⟩
  · have h := (c6_ncz_body_virtual_header
      (NczBodyStorage.block ⟨fun o l => readC [7, 8, 9] o l, 3⟩) 0x4001 2).2.1 (by norm_num)
    simpa using h
  · exact (c6_ncz_body_virtual_header
      (NczBodyStorage.block ⟨fun o l => readC [7, 8, 9] o l, 3⟩) 0 0).2.2

/-! Claim C4. -/

theorem fromBe_toBe8_append (a b : Nat) (ha : a < 2 ^ 64) (hb : b < 2 ^ 64) :
    fromBeBytes (toBeBytes8 a ++ toBeBytes8 b) = a * 2 ^ 64 + b := by
  norm_num [fromBeBytes, toBeBytes8]
  omega

/-- Claim C4: for an AES-CTR section decryptor built with upper counter c
and section start byte offset s, the counter for 16-byte block N is the
128-bit big-endian integer whose bytes 0-7 are c big-endian and bytes 8-15
are s / 16 big-endian, plus N (128-bit wraparound). -/
theorem c4_aes_ctr_counter (c s bi : Nat) (hc : c < 2 ^ 64) (hs : s < 2 ^ 64) :
    AesCtrBlockTransform.getCtr (NcaCryptStorage.newCtrNonce c s) bi =
      toBeBytes16 ((c * 2 ^ 64 + s / 16 + bi) % 2 ^ 128) := by
  unfold AesCtrBlockTransform.getCtr NcaCryptStorage.newCtrNonce
  rw [fromBe_toBe8_append c (s / 16) hc (lt_of_le_of_lt (Nat.div_le_self s 16) hs)]

/-- Witness for C4 at the spec's scenario 2 parameters: upper counter
0x0123456789ABCDEF, section start 0x200, second AES block. -/
theorem c4_witness :
    AesCtrBlockTransform.getCtr
      (NcaCryptStorage.newCtrNonce 0x0123456789ABCDEF 0x200) 1 =
      toBeBytes16 ((0x0123456789ABCDEF * 2 ^ 64 + 0x200 / 16 + 1) % 2 ^ 128) :=
  c4_aes_ctr_counter 0x0123456789ABCDEF 0x200 1 (by norm_num) (by norm_num)

/-! Claim C10. -/

set_option maxRecDepth 1000000 in
/-- Claim C10: AesXtsKey::encrypt performs exactly the same transformation
as AesXtsKey::decrypt (both apply decrypt_sector to every sector), so the
two functions agree on all inputs; consequently encrypt followed by
decrypt does not restore the original data, shown here on the all-zero key
and all-zero 16-byte sector. -/
theorem c10_xts_encrypt_is_decrypt :
    (∀ key data sector sectorSize,
      AesXtsKey.encrypt key data sector sectorSize =
        AesXtsKey.decrypt key data sector sectorSize) ∧
    AesXtsKey.encrypt (List.replicate 32 0) (List.replicate 16 0) 0 16 =
      .ok [102, 233, 75, 212, 239, 138, 44, 59, 136, 76, 250, 89, 202, 52, 43, 46] ∧
    AesXtsKey.decrypt (List.replicate 32 0)
      [102, 233, 75, 212, 239, 138, 44, 59, 136, 76, 250, 89, 202, 52, 43, 46] 0 16 ≠
      .ok (List.replicate 16 0) := by
  exact ⟨fun _ _ _ _ => rfl, by decide, by decide⟩

/-! Claim C7. -/

theorem lookupAssoc_insertAssoc (m : List (List Nat × List Nat)) (k v : List Nat) :
    lookupAssoc (insertAssoc m k v) k = some v := by
  induction m with
  | nil => simp [insertAssoc, lookupAssoc]
  | cons kv rest ih =>
    obtain ⟨k0, v0⟩ := kv
    by_cases h : k0 = k
    · simp [insertAssoc, lookupAssoc, h]
    · simp [insertAssoc, lookupAssoc, h, ih]

/-- Claim C7: for every keyset and Common-type ticket with rights id R and
title-key block B, import_ticket succeeds and afterwards the keyset maps R
to the raw bytes B[0..16], and TitleKey::decrypt of those bytes under a
title kek is the single-block AES-128-ECB decryption of B[0..16] under
that kek. -/
theorem c7_import_ticket_title_key (ks : KeySet) (t : Ticket) (titleKek : List Nat)
    (h : t.titleKeyType = .common) :
    ∃ ks2, ks.importTicket t = .ok ks2 ∧
      ks2.titleKey t.rightsId = some (t.titleKeyBlock.take 16) ∧
      TitleKey.decrypt (t.titleKeyBlock.take 16) titleKek =
        aes128EcbDecrypt titleKek (t.titleKeyBlock.take 16) := by
  refine ⟨⟨insertAssoc ks.titleKeys t.rightsId (t.titleKeyBlock.take 16)⟩, ?_, ?_, rfl⟩
  · unfold KeySet.importTicket Ticket.titleKey
    rw [h]
  · unfold KeySet.titleKey
    exact lookupAssoc_insertAssoc _ _ _

set_option maxRecDepth 10000 in
/-- Witness for C7 at a concrete empty keyset, ticket and title kek. -/
theorem c7_witness :
    ∃ ks2,
      (KeySet.mk []).importTicket ⟨List.range 256, .common, List.replicate 16 1⟩ = .ok ks2 ∧
      ks2.titleKey (List.replicate 16 1) = some ((List.range 256).take 16) ∧
      TitleKey.decrypt ((List.range 256).take 16) (List.replicate 16 2) =
        aes128EcbDecrypt (List.replicate 16 2) ((List.range 256).take 16) :=
  c7_import_ticket_title_key ⟨[]⟩ ⟨List.range 256, .common, List.replicate 16 1⟩
    (List.replicate 16 2) rfl

/-! Claim C8. -/

theorem sliceL_append_left (p q : List Nat) (o n : Nat) (h : o + n ≤ p.length) :
    sliceL (p ++ q) o n = sliceL p o n := by
  unfold sliceL
  rw [List.drop_append_eq_append_drop, List.take_append_eq_append_take]
  have h2 : n - (p.drop o).length = 0 := by simp [List.length_drop]; omega
  rw [h2]
  simp

theorem sliceL_append_right (p q : List Nat) (o n : Nat) (h : p.length ≤ o) :
    sliceL (p ++ q) o n = sliceL q (o - p.length) n := by
  unfold sliceL
  rw [List.drop_append_eq_append_drop, List.drop_eq_nil_of_le h]
  simp

/-- Unfolding of ConcatStorageN::read at a non-empty part list. -/
theorem concatN_read_cons (p : List Nat) (rest : List (List Nat)) (offset : Nat)
    (buf : List Nat) :
    ConcatStorageN.read (p :: rest) offset buf =
      if offset < p.length then
        match readC p offset (min (offset + buf.length) p.length - offset) with
        | .error e => .error e
        | .ok chunk =>
          if (buf.drop (min (offset + buf.length) p.length - offset)).isEmpty then
            .ok chunk
          else
            match ConcatStorageN.read rest
                (offset + (min (offset + buf.length) p.length - offset) - p.length)
                (buf.drop (min (offset + buf.length) p.length - offset)) with
            | .error e => .error e
            | .ok tl => .ok (chunk ++ tl)
      else if buf.isEmpty then .ok buf
      else ConcatStorageN.read rest (offset - p.length) buf := rfl

theorem concatN_read_in_bounds (parts : List (List Nat)) (offset : Nat) (buf : List Nat)
    (h : offset + buf.length ≤ (parts.map List.length).sum) :
    ConcatStorageN.read parts offset buf =
      .ok (sliceL parts.flatten offset buf.length) := by
  induction parts generalizing offset buf with
  | nil =>
    simp only [List.map_nil, List.sum_nil, Nat.le_zero] at h
    have hb : buf = [] := List.length_eq_zero.mp (by omega)
    subst hb
    simp [ConcatStorageN.read, sliceL]
  | cons p rest ih =>
    simp only [List.map_cons, List.sum_cons] at h
    rw [concatN_read_cons]
    by_cases ho : offset < p.length
    · rw [if_pos ho]
      have hrc := readC_ok p offset (min (offset + buf.length) p.length - offset) (by omega)
      rw [hrc]
      dsimp only
      by_cases hrem : buf.length ≤ min (offset + buf.length) p.length - offset
      · have hlen : min (offset + buf.length) p.length - offset = buf.length := by omega
        rw [hlen]
        rw [if_pos (by simp [List.isEmpty_iff])]
        rw [List.flatten_cons, sliceL_append_left p rest.flatten offset buf.length (by omega)]
      · have hlen : min (offset + buf.length) p.length - offset = p.length - offset := by
          omega
        rw [hlen]
        rw [if_neg (by simp [List.isEmpty_iff, List.drop_eq_nil_iff]; omega)]
        have harg : offset + (p.length - offset) - p.length = 0 := by omega
        rw [harg]
        have hrec := ih 0 (buf.drop (p.length - offset)) (by simp [List.length_drop]; omega)
        rw [hrec]
        dsimp only
        congr 1
        rw [List.flatten_cons]
        unfold sliceL
        rw [List.drop_append_eq_append_drop, List.take_append_eq_append_take]
        have h1 : offset - p.length = 0 := by omega
        rw [h1, List.drop_zero]
        have h2 : (p.drop offset).length = p.length - offset := by
          simp [List.length_drop]
        congr 1
        · rw [List.take_of_length_le (by omega), List.take_of_length_le (by omega)]
        · rw [h2]
          congr 1
          simp [List.length_drop]
    · rw [if_neg ho]
      by_cases hb : buf.isEmpty
      · rw [if_pos hb]
        have : buf = [] := List.isEmpty_iff.mp hb
        subst this
        simp [sliceL]
      · rw [if_neg hb]
        rw [ih (offset - p.length) buf (by omega)]
        rw [List.flatten_cons, sliceL_append_right p rest.flatten offset buf.length (by omega)]

theorem concatN_read_always_ok (parts : List (List Nat)) (offset : Nat) (buf : List Nat) :
    ∃ r, ConcatStorageN.read parts offset buf = .ok r := by
  induction parts generalizing offset buf with
  | nil => exact ⟨buf, rfl⟩
  | cons p rest ih =>
    rw [concatN_read_cons]
    by_cases ho : offset < p.length
    · rw [if_pos ho]
      have hrc := readC_ok p offset (min (offset + buf.length) p.length - offset) (by omega)
      rw [hrc]
      dsimp only
      by_cases hrem : (buf.drop (min (offset + buf.length) p.length - offset)).isEmpty
      · rw [if_pos hrem]
        exact ⟨_, rfl⟩
      · rw [if_neg hrem]
        obtain ⟨r, hr⟩ := ih (offset + (min (offset + buf.length) p.length - offset) - p.length)
          (buf.drop (min (offset + buf.length) p.length - offset))
        rw [hr]
        exact ⟨_, rfl⟩
    · rw [if_neg ho]
      by_cases hb : buf.isEmpty
      · rw [if_pos hb]
        exact ⟨_, rfl⟩
      · rw [if_neg hb]
        exact ih (offset - p.length) buf

/-- Claim C8 (amended): an in-bounds read through ConcatStorageN returns Ok
with exactly the bytes of the logical concatenation, each overlapped part
read once in order; but the read returns Ok for every offset and length,
including reads extending past the total size, which leave the tail of the
buffer unwritten instead of failing. -/
theorem c8_concat_read (parts : List (List Nat)) (offset : Nat) (buf : List Nat) :
    (offset + buf.length ≤ (parts.map List.length).sum →
      ConcatStorageN.read parts offset buf =
        .ok (sliceL parts.flatten offset buf.length)) ∧
    ∃ r, ConcatStorageN.read parts offset buf = .ok r :=
  ⟨fun h => concatN_read_in_bounds parts offset buf h,
   concatN_read_always_ok parts offset buf⟩

/-- Counterexample to C8 as stated: over parts [1,2] and [3,4] (total size
4), the read of 4 bytes at offset 3 extends past the total size but still
returns Ok, with only one byte of the buffer written. -/
theorem c8_counterexample :
    3 + 4 > ([[1, 2], [3, 4]].map List.length).sum ∧
    ConcatStorageN.read [[1, 2], [3, 4]] 3 [0, 0, 0, 0] = .ok [4, 0, 0, 0] := by
  exact ⟨by decide, rfl⟩

/-- Witness for C8 at a concrete in-bounds read spanning both parts. -/
theorem c8_witness :
    ConcatStorageN.read [[1, 2], [3, 4]] 1 [0, 0] =
      .ok (sliceL [[1, 2], [3, 4]].flatten 1 2) ∧
    ∃ r, ConcatStorageN.read [[1, 2], [3, 4]] 1 [0, 0] = .ok r :=
  ⟨(c8_concat_read [[1, 2], [3, 4]] 1 [0, 0]).1 (by decide),
   (c8_concat_read [[1, 2], [3, 4]] 1 [0, 0]).2⟩

/-! Claim C1. -/

theorem lookupContents_ok (ncas : List (Nat × NcaModel)) (ids : List Nat)
    (h : ∀ id ∈ ids, (ncaSetGet ncas id).isSome) :
    lookupContents ncas ids = .ok ids := by
  induction ids with
  | nil => rfl
  | cons id rest ih =>
    have h1 := h id (by simp)
    have hrest : lookupContents ncas rest = .ok rest :=
      ih (fun i hi => h i (List.mem_cons_of_mem _ hi))
    cases hg : ncaSetGet ncas id with
    | none => rw [hg] at h1; simp at h1
    | some v =>
      unfold lookupContents
      rw [hg, hrest]

theorem parseContent_unsupported (metaContentId : Nat) (metaNca : NcaModel)
    (ncas : List (Nat × NcaModel)) (meta : PackagedContentMeta)
    (hc : metaNca.cnmt = .ok meta)
    (hu : meta.ty.isUnsupported = true)
    (hl : ∀ ci ∈ meta.contentInfo, ci.contentInfo.ty ≠ NcmContentType.deltaFragment →
      (ncaSetGet ncas ci.contentInfo.id).isSome) :
    parseContent metaContentId metaNca ncas = .err (.metaUnsupportedType meta.ty) := by
  unfold parseContent
  rw [hc]
  dsimp only
  rw [lookupContents_ok ncas _ ?side]
  case side =>
    intro id hid
    simp only [List.mem_map, List.mem_filter] at hid
    obtain ⟨ci, ⟨hmem, hdf⟩, rfl⟩ := hid
    exact hl ci hmem (by simpa using hdf)
  dsimp only
  obtain ⟨mid, mver, mty, minst, mext, mci⟩ := meta
  cases mty <;>
    first
    | rfl
    | simp [ContentMetaType.isUnsupported] at hu

theorem contentSetGo_cons (ncas : List (Nat × NcaModel)) (id : Nat) (nca : NcaModel)
    (rest : List (Nat × NcaModel)) (acc : List (ContentMetaKey × AnyContentInfo)) :
    contentSetGo ncas ((id, nca) :: rest) acc =
      if nca.contentType = NcaContentType.meta then
        match parseContent id nca ncas with
        | .err e => .err ⟨id, e⟩
        | .panicked => .panicked
        | .ok content =>
          contentSetGo ncas rest (contentSetInsert acc content.contentMetaKey content)
      else contentSetGo ncas rest acc := rfl

theorem contentSetGo_skip (ncas pre rest : List (Nat × NcaModel))
    (acc : List (ContentMetaKey × AnyContentInfo))
    (hpre : ∀ kv ∈ pre, kv.2.contentType ≠ NcaContentType.meta) :
    contentSetGo ncas (pre ++ rest) acc = contentSetGo ncas rest acc := by
  induction pre with
  | nil => rfl
  | cons kv pre ih =>
    obtain ⟨id, nca⟩ := kv
    have hne := hpre (id, nca) (by simp)
    rw [List.cons_append, contentSetGo_cons, if_neg hne]
    exact ih (fun kv2 hkv => hpre kv2 (List.mem_cons_of_mem _ hkv))

/-- Claim C1 (amended): when the first Meta NCA of the set (in iteration
order) carries a CNMT of one of the unsupported types (SystemProgram,
SystemData, SystemUpdate, BootImagePackage, BootImagePackageSafe, Delta),
and its referenced contents resolve, content_set_from_nca_set does not
skip it: it aborts the whole operation with Err(ContentSetParseError)
wrapping MetaUnsupportedType, rather than returning Ok with the remaining
titles. -/
theorem c1_unsupported_meta_aborts (pre post : List (Nat × NcaModel)) (cid : Nat)
    (entry : NcaModel) (meta : PackagedContentMeta)
    (hpre : ∀ kv ∈ pre, kv.2.contentType ≠ NcaContentType.meta)
    (hmeta : entry.contentType = NcaContentType.meta)
    (hc : entry.cnmt = .ok meta)
    (hu : meta.ty.isUnsupported = true)
    (hl : ∀ ci ∈ meta.contentInfo, ci.contentInfo.ty ≠ NcmContentType.deltaFragment →
      (ncaSetGet (pre ++ (cid, entry) :: post) ci.contentInfo.id).isSome) :
    contentSetFromNcaSet (pre ++ (cid, entry) :: post) =
      .err ⟨cid, .metaUnsupportedType meta.ty⟩ := by
  unfold contentSetFromNcaSet
  rw [contentSetGo_skip _ pre _ [] hpre]
  rw [contentSetGo_cons, if_pos hmeta,
    parseContent_unsupported cid entry _ meta hc hu hl]

/-- Counterexample to C1 as stated: an NCA set holding one meta NCA whose
CNMT declares SystemProgram makes content_set_from_nca_set return Err
(wrapping MetaUnsupportedType) instead of Ok with that title skipped. -/
theorem c1_counterexample :
    contentSetFromNcaSet
      [(7, ⟨NcaContentType.meta,
            .ok ⟨1, 0, ContentMetaType.systemProgram, 0, ExtendedMetaHeader.none, []⟩,
            .error ControlParseError.noDataSection⟩)] =
      .err ⟨7, .metaUnsupportedType ContentMetaType.systemProgram⟩ := rfl

/-- Witness for C1 at the concrete singleton NCA set of the counterexample. -/
theorem c1_witness :
    contentSetFromNcaSet
      [(7, ⟨NcaContentType.meta,
            .ok ⟨1, 0, ContentMetaType.systemProgram, 0, ExtendedMetaHeader.none, []⟩,
            .error ControlParseError.noDataSection⟩)] =
      .err ⟨7, .metaUnsupportedType ContentMetaType.systemProgram⟩ :=
  c1_unsupported_meta_aborts [] [] 7
    ⟨NcaContentType.meta,
     .ok ⟨1, 0, ContentMetaType.systemProgram, 0, ExtendedMetaHeader.none, []⟩,
     .error ControlParseError.noDataSection⟩
    ⟨1, 0, ContentMetaType.systemProgram, 0, ExtendedMetaHeader.none, []⟩
    (fun kv hkv => absurd hkv (List.not_mem_nil kv))
    rfl rfl rfl
    (fun ci hci _ => absurd hci (List.not_mem_nil ci))

/-! Claim C5. -/

theorem fsHeaderStep_ok_of_match (fsParser : List Nat → Option Nat)
    (enabled : Nat → Bool) (hashes sectors : Nat → List Nat) (j : Nat)
    (h : enabled j = true →
      sha256 (sectors j) = hashes j ∧ (fsParser (sectors j)).isSome = true) :
    ∃ x, fsHeaderStep fsParser enabled hashes sectors j = .ok x := by
  unfold fsHeaderStep Sha256Hash.verify
  by_cases he : enabled j
  · obtain ⟨h1, h2⟩ := h he
    rw [if_pos he, if_pos h1]
    dsimp only
    cases hp : fsParser (sectors j) with
    | none => rw [hp] at h2; simp at h2
    | some v => exact ⟨_, rfl⟩
  · rw [if_neg he]
    exact ⟨_, rfl⟩

theorem fsHeaderStep_mismatch (fsParser : List Nat → Option Nat)
    (enabled : Nat → Bool) (hashes sectors : Nat → List Nat) (j : Nat)
    (he : enabled j = true) (hm : sha256 (sectors j) ≠ hashes j) :
    fsHeaderStep fsParser enabled hashes sectors j = .error (.fsHeaderHashMismatch j) := by
  unfold fsHeaderStep Sha256Hash.verify
  rw [if_pos he, if_neg hm]

theorem fsHeaderStep_disabled (fsParser : List Nat → Option Nat)
    (enabled : Nat → Bool) (hashes sectors : Nat → List Nat) (j : Nat)
    (he : enabled j = false) :
    fsHeaderStep fsParser enabled hashes sectors j = .ok Option.none := by
  unfold fsHeaderStep
  rw [if_neg (by simp [he])]

theorem fsHeaderStep_congr (fsParser : List Nat → Option Nat)
    (enabled : Nat → Bool) (hashes sectors sectors2 : Nat → List Nat) (j : Nat)
    (h : enabled j = true → sectors2 j = sectors j) :
    fsHeaderStep fsParser enabled hashes sectors2 j =
      fsHeaderStep fsParser enabled hashes sectors j := by
  unfold fsHeaderStep
  by_cases he : enabled j
  · rw [if_pos he, if_pos he, h he]
  · rw [if_neg he, if_neg he]

/-- Claim C5: if the FS-header sector of an enabled section i does not
SHA-256-hash to fs_header_hashes[i] (all earlier enabled sections being
clean), Nca::new fails with FsHeaderHashMismatch{index: i}; FS headers of
disabled sections are neither parsed (the slot stays None) nor verified
(the loop's outcome does not depend on the sector bytes at disabled
indices). -/
theorem c5_fs_header_hash_mismatch (fsParser : List Nat → Option Nat)
    (enabled : Nat → Bool) (hashes sectors : Nat → List Nat)
    (ncaSize storageSize : Nat) (keysOutcome : Except NcaError Unit)
    (expectedSectionCount : Nat) (i : Nat) :
    (i < 4 → enabled i = true → sha256 (sectors i) ≠ hashes i →
      (∀ j, j < i → enabled j = true →
        sha256 (sectors j) = hashes j ∧ (fsParser (sectors j)).isSome = true) →
      ncaNew fsParser enabled hashes sectors ncaSize storageSize keysOutcome
        expectedSectionCount = .err (.fsHeaderHashMismatch i)) ∧
    (∀ res j, enabled j = false →
      parseFsHeaders fsParser enabled hashes sectors = .ok res →
      res.getD j Option.none = Option.none) ∧
    (∀ sectors2, (∀ j, enabled j = true → sectors2 j = sectors j) →
      parseFsHeaders fsParser enabled hashes sectors2 =
        parseFsHeaders fsParser enabled hashes sectors) := by
  refine ⟨fun hi hen hmis hprev => ?_, fun res j hej hok => ?_, fun sectors2 hcon => ?_⟩
  · interval_cases i
    · have hm := fsHeaderStep_mismatch fsParser enabled hashes sectors 0 hen hmis
      simp [ncaNew, parseFsHeaders, hm, Bind.bind, Except.bind]
    · obtain ⟨x0, hx0⟩ := fsHeaderStep_ok_of_match fsParser enabled hashes sectors 0
        (fun he => hprev 0 (by omega) he)
      have hm := fsHeaderStep_mismatch fsParser enabled hashes sectors 1 hen hmis
      simp [ncaNew, parseFsHeaders, hx0, hm, Bind.bind, Except.bind]
    · obtain ⟨x0, hx0⟩ := fsHeaderStep_ok_of_match fsParser enabled hashes sectors 0
        (fun he => hprev 0 (by omega) he)
      obtain ⟨x1, hx1⟩ := fsHeaderStep_ok_of_match fsParser enabled hashes sectors 1
        (fun he => hprev 1 (by omega) he)
      have hm := fsHeaderStep_mismatch fsParser enabled hashes sectors 2 hen hmis
      simp [ncaNew, parseFsHeaders, hx0, hx1, hm, Bind.bind, Except.bind]
    · obtain ⟨x0, hx0⟩ := fsHeaderStep_ok_of_match fsParser enabled hashes sectors 0
        (fun he => hprev 0 (by omega) he)
      obtain ⟨x1, hx1⟩ := fsHeaderStep_ok_of_match fsParser enabled hashes sectors 1
        (fun he => hprev 1 (by omega) he)
      obtain ⟨x2, hx2⟩ := fsHeaderStep_ok_of_match fsParser enabled hashes sectors 2
        (fun he => hprev 2 (by omega) he)
      have hm := fsHeaderStep_mismatch fsParser enabled hashes sectors 3 hen hmis
      simp [ncaNew, parseFsHeaders, hx0, hx1, hx2, hm, Bind.bind, Except.bind, Functor.map, Except.map]
  · cases hs0 : fsHeaderStep fsParser enabled hashes sectors 0 with
    | error e => simp [parseFsHeaders, hs0, Bind.bind, Except.bind] at hok
    | ok h0 =>
      cases hs1 : fsHeaderStep fsParser enabled hashes sectors 1 with
      | error e => simp [parseFsHeaders, hs0, hs1, Bind.bind, Except.bind] at hok
      | ok h1 =>
        cases hs2 : fsHeaderStep fsParser enabled hashes sectors 2 with
        | error e => simp [parseFsHeaders, hs0, hs1, hs2, Bind.bind, Except.bind] at hok
        | ok h2 =>
          cases hs3 : fsHeaderStep fsParser enabled hashes sectors 3 with
          | error e => simp [parseFsHeaders, hs0, hs1, hs2, hs3, Bind.bind, Except.bind, Functor.map, Except.map, pure, Except.pure] at hok
          | ok h3 =>
            simp [parseFsHeaders, hs0, hs1, hs2, hs3, Bind.bind, Except.bind, Functor.map, Except.map, pure, Except.pure] at hok
            subst hok
            match j, hej with
            | 0, hej =>
              rw [fsHeaderStep_disabled fsParser enabled hashes sectors 0 hej] at hs0
              simp at hs0
              simp [List.getD, hs0]
            | 1, hej =>
              rw [fsHeaderStep_disabled fsParser enabled hashes sectors 1 hej] at hs1
              simp at hs1
              simp [List.getD, hs1]
            | 2, hej =>
              rw [fsHeaderStep_disabled fsParser enabled hashes sectors 2 hej] at hs2
              simp at hs2
              simp [List.getD, hs2]
            | 3, hej =>
              rw [fsHeaderStep_disabled fsParser enabled hashes sectors 3 hej] at hs3
              simp at hs3
              simp [List.getD, hs3]
            | (jj + 4), hej => simp [List.getD]
  · unfold parseFsHeaders
    rw [fsHeaderStep_congr fsParser enabled hashes sectors sectors2 0 (hcon 0),
      fsHeaderStep_congr fsParser enabled hashes sectors sectors2 1 (hcon 1),
      fsHeaderStep_congr fsParser enabled hashes sectors sectors2 2 (hcon 2),
      fsHeaderStep_congr fsParser enabled hashes sectors sectors2 3 (hcon 3)]

set_option maxRecDepth 1000000 in
/-- Witness for C5 at the spec's scenario 5 shape: only section 1 enabled,
its 0x200-byte zero sector hashing to a digest different from the stored
all-zero hash, so Nca::new fails with FsHeaderHashMismatch{index: 1}. -/
theorem c5_witness :
    ncaNew (fun _ => Option.some 0) (fun j => j == 1) (fun _ => List.replicate 32 0)
      (fun _ => List.replicate 512 0) 0 0 (.ok ()) 1 =
      .err (.fsHeaderHashMismatch 1) :=
  (c5_fs_header_hash_mismatch (fun _ => Option.some 0) (fun j => j == 1)
    (fun _ => List.replicate 32 0) (fun _ => List.replicate 512 0) 0 0 (.ok ()) 1 1).1
    (by omega) rfl (by decide)
    (fun j hj he => by interval_cases j; simp at he)

/-! Claim C3. -/

theorem getD_set_self (l : List BlockStatus) (n : Nat) (a : BlockStatus)
    (h : n < l.length) : (l.set n a).getD n .unchecked = a := by
  simp [List.getD_eq_getElem?_getD, List.getElem?_set_self h]

set_option maxHeartbeats 1000000 in
/-- Claim C3: read_block marks a block Valid exactly when the SHA-256 of
the block content (zero-padded to the full block size for the IVFC/RomFS
flavour, the bare payload bytes for the Sha256/PFS flavour) equals the
32-byte digest stored at block_index * 32 in the hash storage; under Full
a mismatching block yields IntegrityCheckFailed while a matching one
returns its bytes; under IgnoreOnInvalid the bytes are returned with no
error either way; and under None the hash storage and the status cache are
not touched and the data is returned. -/
theorem c3_integrity_read_block
    (bs : Nat) (data hashData : List Nat) (level : IntegrityCheckLevel)
    (ty : IntegrityStorageType) (statuses : List BlockStatus)
    (blockIndex current : Nat) (buf : List Nat)
    (hbs : 0 < bs)
    (hcur : nthBlockSize data.length bs blockIndex = .ok current)
    (hin : blockIndex * bs + current ≤ data.length)
    (hbuf : buf.length = current)
    (hst : statuses.get? blockIndex = some BlockStatus.unchecked)
    (hh : blockIndex * 32 + 32 ≤ hashData.length) :
    (level ≠ IntegrityCheckLevel.none →
      (IntegrityVerificationLevelStorage.readBlock bs data hashData level ty
          statuses blockIndex buf).2.getD blockIndex BlockStatus.unchecked =
        (if sha256 (c3HashInput ty data bs blockIndex current) =
            sliceL hashData (blockIndex * 32) 32
         then BlockStatus.valid else BlockStatus.invalid)) ∧
    (level = IntegrityCheckLevel.full →
      sha256 (c3HashInput ty data bs blockIndex current) ≠
        sliceL hashData (blockIndex * 32) 32 →
      (IntegrityVerificationLevelStorage.readBlock bs data hashData level ty
          statuses blockIndex buf).1 = .err .integrityCheckFailed) ∧
    (level = IntegrityCheckLevel.full →
      sha256 (c3HashInput ty data bs blockIndex current) =
        sliceL hashData (blockIndex * 32) 32 →
      (IntegrityVerificationLevelStorage.readBlock bs data hashData level ty
          statuses blockIndex buf).1 = .ok (sliceL data (blockIndex * bs) current)) ∧
    (level = IntegrityCheckLevel.ignoreOnInvalid →
      (IntegrityVerificationLevelStorage.readBlock bs data hashData level ty
          statuses blockIndex buf).1 = .ok (sliceL data (blockIndex * bs) current)) ∧
    (level = IntegrityCheckLevel.none →
      IntegrityVerificationLevelStorage.readBlock bs data hashData level ty
          statuses blockIndex buf =
        (.ok (sliceL data (blockIndex * bs) current), statuses)) := by
  have hlt : blockIndex < statuses.length := by
    by_contra hge
    rw [List.get?_eq_none.mpr (by omega)] at hst
    simp at hst
  have hcb : current ≤ bs := by
    unfold nthBlockSize at hcur
    by_cases hbi : blockIndex < blockCount data.length bs
    · rw [if_pos hbi] at hcur
      simp only [RunResult.ok.injEq] at hcur
      by_cases hlast : blockIndex = blockCount data.length bs - 1
      · rw [if_pos hlast] at hcur
        have := Nat.mod_lt (data.length - 1) hbs
        omega
      · rw [if_neg hlast] at hcur
        omega
    · rw [if_neg hbi] at hcur
      simp at hcur
  have hplen : (sliceL data (blockIndex * bs) current).length = current :=
    sliceL_length _ _ _ hin
  have hchunk : readC data (blockIndex * bs) current =
      .ok (sliceL data (blockIndex * bs) current) := readC_ok _ _ _ hin
  have hdig : readC hashData (blockIndex * 32) 32 =
      .ok (sliceL hashData (blockIndex * 32) 32) := readC_ok _ _ _ hh
  have htake : ∀ x : List Nat,
      (sliceL data (blockIndex * bs) current ++ x).take current =
        sliceL data (blockIndex * bs) current := by
    intro x
    rw [List.take_append_eq_append_take, List.take_of_length_le (by omega), hplen,
      Nat.sub_self, List.take_zero, List.append_nil]
  have hok : ∀ (_ : level ≠ IntegrityCheckLevel.none),
      sha256 (c3HashInput ty data bs blockIndex current) =
        sliceL hashData (blockIndex * 32) 32 →
      IntegrityVerificationLevelStorage.readBlock bs data hashData level ty
          statuses blockIndex buf =
        (.ok (sliceL data (blockIndex * bs) current),
         statuses.set blockIndex BlockStatus.valid) := by
    intro hlv hm
    cases ty <;>
    · unfold IntegrityVerificationLevelStorage.readBlock
      rw [hcur]
      dsimp only
      rw [hchunk]
      dsimp only
      rw [if_neg hlv, hst]
      dsimp only
      rw [if_pos rfl, hdig]
      dsimp only
      dsimp only [c3HashInput] at hm
      rw [htake]
      first
      | rw [List.take_of_length_le
          (show (sliceL data (blockIndex * bs) current ++
              List.replicate (bs - current) 0).length ≤ bs by
            rw [List.length_append, hplen, List.length_replicate]; omega)]
      | skip
      rw [if_pos hm]
      rw [getD_set_self _ _ _ hlt]
      rw [if_neg (by simp)]
      rw [hbuf, htake]
  have hbad : ∀ (_ : level ≠ IntegrityCheckLevel.none),
      sha256 (c3HashInput ty data bs blockIndex current) ≠
        sliceL hashData (blockIndex * 32) 32 →
      IntegrityVerificationLevelStorage.readBlock bs data hashData level ty
          statuses blockIndex buf =
        (if level = IntegrityCheckLevel.full
         then (.err .integrityCheckFailed, statuses.set blockIndex BlockStatus.invalid)
         else (.ok (sliceL data (blockIndex * bs) current),
               statuses.set blockIndex BlockStatus.invalid)) := by
    intro hlv hm
    cases ty <;>
    · unfold IntegrityVerificationLevelStorage.readBlock
      rw [hcur]
      dsimp only
      rw [hchunk]
      dsimp only
      rw [if_neg hlv, hst]
      dsimp only
      rw [if_pos rfl, hdig]
      dsimp only
      dsimp only [c3HashInput] at hm
      rw [htake]
      first
      | rw [List.take_of_length_le
          (show (sliceL data (blockIndex * bs) current ++
              List.replicate (bs - current) 0).length ≤ bs by
            rw [List.length_append, hplen, List.length_replicate]; omega)]
      | skip
      rw [if_neg hm]
      rw [getD_set_self _ _ _ hlt]
      by_cases hf : level = IntegrityCheckLevel.full
      · rw [if_pos ⟨rfl, hf⟩, if_pos hf]
      · rw [if_neg (by simp [hf]), if_neg hf]
        rw [hbuf, htake]
  refine ⟨fun hlv => ?_, fun hf hm => ?_, fun hf hm => ?_, fun hig => ?_, fun hn => ?_⟩
  · by_cases hm : sha256 (c3HashInput ty data bs blockIndex current) =
        sliceL hashData (blockIndex * 32) 32
    · rw [hok hlv hm, if_pos hm]
      exact getD_set_self _ _ _ hlt
    · rw [hbad hlv hm, if_neg hm, apply_ite Prod.snd]
      simp only [ite_self]
      exact getD_set_self _ _ _ hlt
  · rw [hbad (by simp [hf]) hm, if_pos hf]
  · rw [hok (by simp [hf]) hm]
  · by_cases hm : sha256 (c3HashInput ty data bs blockIndex current) =
        sliceL hashData (blockIndex * 32) 32
    · rw [hok (by simp [hig]) hm]
    · rw [hbad (by simp [hig]) hm, if_neg (by simp [hig])]
  · subst hn
    cases ty <;>
    · unfold IntegrityVerificationLevelStorage.readBlock
      rw [hcur]
      dsimp only
      rw [hchunk]
      dsimp only
      rw [if_pos rfl]
      rw [hbuf, htake]

set_option maxRecDepth 1000000 in
/-- Witness for C3 on a 6-byte storage with block size 4 (trailing block 1
of size 2): under IntegrityCheckLevel::None the data comes back and the
status cache is untouched; under Full with a wrong stored digest the read
fails with IntegrityCheckFailed. -/
theorem c3_witness :
    IntegrityVerificationLevelStorage.readBlock 4 [1, 2, 3, 4, 5, 6]
      (List.replicate 64 0) IntegrityCheckLevel.none IntegrityStorageType.romFs
      [BlockStatus.unchecked, BlockStatus.unchecked] 1 [0, 0] =
      (.ok (sliceL [1, 2, 3, 4, 5, 6] (1 * 4) 2),
       [BlockStatus.unchecked, BlockStatus.unchecked]) ∧
    (IntegrityVerificationLevelStorage.readBlock 4 [1, 2, 3, 4, 5, 6]
      (List.replicate 64 1) IntegrityCheckLevel.full IntegrityStorageType.partitionFs
      [BlockStatus.unchecked, BlockStatus.unchecked] 1 [0, 0]).1 =
      .err .integrityCheckFailed :=
  ⟨(c3_integrity_read_block 4 [1, 2, 3, 4, 5, 6] (List.replicate 64 0)
      IntegrityCheckLevel.none IntegrityStorageType.romFs
      [BlockStatus.unchecked, BlockStatus.unchecked] 1 2 [0, 0]
      (by decide) (by decide) (by decide) rfl (by decide) (by decide)).2.2.2.2 rfl,
   (c3_integrity_read_block 4 [1, 2, 3, 4, 5, 6] (List.replicate 64 1)
      IntegrityCheckLevel.full IntegrityStorageType.partitionFs
      [BlockStatus.unchecked, BlockStatus.unchecked] 1 2 [0, 0]
      (by decide) (by decide) (by decide) rfl (by decide) (by decide)).2.1 rfl (by decide)⟩

/-! Claim C2. -/

theorem sliceL_sliceL (l : List Nat) (a n r hl : Nat) (h : r + hl ≤ n) :
    sliceL (sliceL l a n) r hl = sliceL l (a + r) hl := by
  unfold sliceL
  rw [List.drop_take, List.take_take, min_eq_left (by omega), List.drop_drop]

theorem take_sliceL (l : List Nat) (a n t : Nat) (h : t ≤ n) :
    (sliceL l a n).take t = sliceL l a t := by
  unfold sliceL
  rw [List.take_take, min_eq_left h]

theorem sliceL_zero (l : List Nat) (a : Nat) : sliceL l a 0 = [] := by
  simp [sliceL]

theorem linearAdapter_blockAdapter_read_ok (data : List Nat) (bs offset len : Nat)
    (hbs : 0 < bs) (hbound : offset + len ≤ data.length)
    (hfit : data.length % bs = 0 ∨ offset + len ≤ data.length / bs * bs) :
    LinearAdapterStorage.read data bs offset len = .ok (sliceL data offset len) := by
  have hKle : data.length / bs * bs ≤ data.length := Nat.div_mul_le_self _ _
  have htailroom : ∀ p : Nat, p % bs = 0 → p < offset + len → p + bs ≤ data.length := by
    intro p hp hlt
    have hpeq : p / bs * bs = p := Nat.div_mul_cancel (Nat.dvd_of_mod_eq_zero hp)
    rcases hfit with hfit | hfit
    · have hK : data.length / bs * bs = data.length :=
        Nat.div_mul_cancel (Nat.dvd_of_mod_eq_zero hfit)
      have h1 : p / bs < data.length / bs := by
        rw [Nat.div_lt_iff_lt_mul hbs, hK]
        exact lt_of_lt_of_le hlt hbound
      have h3 : (p / bs + 1) * bs ≤ data.length / bs * bs :=
        Nat.mul_le_mul_right _ h1
      calc p + bs = (p / bs + 1) * bs := by rw [Nat.add_mul, one_mul, hpeq]
      _ ≤ data.length / bs * bs := h3
      _ = data.length := hK
    · have h1 : p / bs < data.length / bs := by
        rw [Nat.div_lt_iff_lt_mul hbs]
        exact lt_of_lt_of_le hlt hfit
      have h3 : (p / bs + 1) * bs ≤ data.length / bs * bs :=
        Nat.mul_le_mul_right _ h1
      calc p + bs = (p / bs + 1) * bs := by rw [Nat.add_mul, one_mul, hpeq]
      _ ≤ data.length / bs * bs := h3
      _ ≤ data.length := hKle
  by_cases hr : offset % bs = 0
  · have hoeq : offset / bs * bs = offset :=
      Nat.div_mul_cancel (Nat.dvd_of_mod_eq_zero hr)
    have hbodyB : offset / bs * bs + len / bs * bs ≤ data.length := by
      have := Nat.div_mul_le_self len bs
      omega
    unfold LinearAdapterStorage.read
    dsimp only
    rw [if_neg (by simp [hr])]
    dsimp only
    rw [blockAdapter_readBlockBulk_ok data bs (offset / bs) (len / bs * bs)
      (Nat.mul_mod_left _ _) hbodyB]
    dsimp only
    rw [hoeq]
    have hmod := Nat.div_add_mod len bs
    rw [Nat.mul_comm] at hmod
    by_cases hl2 : len - len / bs * bs = 0
    · rw [if_neg (by simp [hl2])]
      have hlen : len / bs * bs = len := by omega
      rw [hlen, List.nil_append]
    · rw [if_pos hl2]
      have ho2 : (offset + len / bs * bs) % bs = 0 := by
        rw [Nat.add_mul_mod_self_right, hr]
      have ho2eq : (offset + len / bs * bs) / bs * bs = offset + len / bs * bs :=
        Nat.div_mul_cancel (Nat.dvd_of_mod_eq_zero ho2)
      have htr : offset + len / bs * bs + bs ≤ data.length :=
        htailroom _ ho2 (by omega)
      rw [blockAdapter_readBlock_ok data bs ((offset + len / bs * bs) / bs)
        (by rw [ho2eq]; exact htr)]
      dsimp only
      rw [ho2eq]
      rw [take_sliceL data _ bs _ (by have := Nat.mod_lt len hbs; omega)]
      rw [List.nil_append, sliceL_append_adjacent]
      have hX : len / bs * bs + (len - len / bs * bs) = len := by omega
      rw [hX]
  · have hq := Nat.div_add_mod offset bs
    rw [Nat.mul_comm] at hq
    have hrlt : offset % bs < bs := Nat.mod_lt _ hbs
    have hheadB : offset / bs * bs + bs ≤ data.length := by
      apply htailroom _ (Nat.mul_mod_left _ _)
      have h1 : offset / bs * bs ≤ offset := Nat.div_mul_le_self _ _
      omega
    unfold LinearAdapterStorage.read
    dsimp only
    rw [if_pos hr]
    rw [blockAdapter_readBlock_ok data bs (offset / bs) hheadB]
    dsimp only
    rw [sliceL_sliceL data (offset / bs * bs) bs (offset % bs)
      (min (bs - offset % bs) len) (by omega)]
    rw [hq]
    by_cases hsmall : len ≤ bs - offset % bs
    · have hminl : min (bs - offset % bs) len = len := min_eq_right hsmall
      rw [hminl]
      simp only [Nat.sub_self, Nat.zero_div, Nat.zero_mul]
      rw [blockAdapter_readBlockBulk_ok data bs ((offset + len) / bs) 0
        (Nat.zero_mod _) (by have := Nat.div_mul_le_self (offset + len) bs; omega)]
      dsimp only
      rw [if_neg (by simp)]
      rw [sliceL_zero, List.append_nil]
    · have hminl : min (bs - offset % bs) len = bs - offset % bs :=
        min_eq_left (by omega)
      rw [hminl]
      have ho1 : (offset + (bs - offset % bs)) % bs = 0 := by
        have he : offset + (bs - offset % bs) = (offset / bs + 1) * bs := by
          rw [Nat.add_mul, one_mul]
          omega
        rw [he, Nat.mul_mod_left]
      have ho1eq : (offset + (bs - offset % bs)) / bs * bs =
          offset + (bs - offset % bs) :=
        Nat.div_mul_cancel (Nat.dvd_of_mod_eq_zero ho1)
      have hbody1 : (offset + (bs - offset % bs)) / bs * bs +
          (len - (bs - offset % bs)) / bs * bs ≤ data.length := by
        rw [ho1eq]
        have := Nat.div_mul_le_self (len - (bs - offset % bs)) bs
        omega
      rw [blockAdapter_readBlockBulk_ok data bs ((offset + (bs - offset % bs)) / bs)
        ((len - (bs - offset % bs)) / bs * bs) (Nat.mul_mod_left _ _) hbody1]
      dsimp only
      rw [ho1eq]
      have hmod := Nat.div_add_mod (len - (bs - offset % bs)) bs
      rw [Nat.mul_comm] at hmod
      by_cases hl2 : len - (bs - offset % bs) -
          (len - (bs - offset % bs)) / bs * bs = 0
      · rw [if_neg (by simp [hl2])]
        rw [sliceL_append_adjacent]
        have hX : bs - offset % bs + (len - (bs - offset % bs)) / bs * bs = len := by
          omega
        rw [hX]
      · rw [if_pos hl2]
        have ho2 : (offset + (bs - offset % bs) +
            (len - (bs - offset % bs)) / bs * bs) % bs = 0 := by
          rw [Nat.add_mul_mod_self_right, ho1]
        have ho2eq : (offset + (bs - offset % bs) +
            (len - (bs - offset % bs)) / bs * bs) / bs * bs =
            offset + (bs - offset % bs) +
              (len - (bs - offset % bs)) / bs * bs :=
          Nat.div_mul_cancel (Nat.dvd_of_mod_eq_zero ho2)
        have htr : offset + (bs - offset % bs) +
            (len - (bs - offset % bs)) / bs * bs + bs ≤ data.length :=
          htailroom _ ho2 (by omega)
        rw [blockAdapter_readBlock_ok data bs _ (by rw [ho2eq]; exact htr)]
        dsimp only
        rw [ho2eq]
        rw [take_sliceL data _ bs _
          (by have := Nat.mod_lt (len - (bs - offset % bs)) hbs; omega)]
        rw [sliceL_append_adjacent]
        rw [Nat.add_assoc offset (bs - offset % bs) ((len - (bs - offset % bs)) / bs * bs)]
        rw [sliceL_append_adjacent]
        have hX : bs - offset % bs + (len - (bs - offset % bs)) / bs * bs +
            (len - (bs - offset % bs) - (len - (bs - offset % bs)) / bs * bs) = len := by
          omega
        rw [hX]

/-- Claim C2 (amended): reading l bytes at offset o through
LinearAdapterStorage(BlockAdapterStorage(S, n)) succeeds with exactly the
bytes of S.read(o, l) whenever the read stays within the block-aligned
prefix of S — in particular for every in-bounds read when S.size() is a
multiple of n. (A read touching a trailing partial block instead fails,
see the counterexample.) -/
theorem c2_linear_block_adapter (data : List Nat) (bs offset len : Nat)
    (hbs : 0 < bs) (hbound : offset + len ≤ data.length)
    (hfit : data.length % bs = 0 ∨ offset + len ≤ data.length / bs * bs) :
    LinearAdapterStorage.read data bs offset len = .ok (sliceL data offset len) ∧
    readC data offset len = .ok (sliceL data offset len) :=
  ⟨linearAdapter_blockAdapter_read_ok data bs offset len hbs hbound hfit,
   readC_ok data offset len hbound⟩

/-- Counterexample to C2 as stated: for the 5-byte storage under block size
4, the in-bounds read of 5 bytes at offset 0 touches the trailing partial
block; the composed adapter issues a full-block read past the end and
fails with OutOfBounds, while S.read(0, 5) succeeds. -/
theorem c2_counterexample :
    LinearAdapterStorage.read [1, 2, 3, 4, 5] 4 0 5 = .err .outOfBounds ∧
    readC [1, 2, 3, 4, 5] 0 5 = .ok [1, 2, 3, 4, 5] :=
  ⟨rfl, rfl⟩

/-- Witness for C2 at an 8-byte storage (a multiple of the block size 4)
with an unaligned head and tail. -/
theorem c2_witness :
    LinearAdapterStorage.read [1, 2, 3, 4, 5, 6, 7, 8] 4 1 6 =
      .ok (sliceL [1, 2, 3, 4, 5, 6, 7, 8] 1 6) ∧
    readC [1, 2, 3, 4, 5, 6, 7, 8] 1 6 = .ok (sliceL [1, 2, 3, 4, 5, 6, 7, 8] 1 6) :=
  c2_linear_block_adapter [1, 2, 3, 4, 5, 6, 7, 8] 4 1 6 (by decide) (by decide)
    (Or.inl (by decide))

end HacRs
